import Mathlib

/-!
Verification of the LLM response cache subsystem of the
`metadata-code-extractor` repository, as a shallow embedding in Lean.

Embedded source files:
  * `metadata_code_extractor/integrations/llm/cache.py`
    (`InMemoryLLMCache`, `FileLLMCache`)
  * `metadata_code_extractor/core/llm/client.py`
    (`LLMClient.get_chat_completion`, `LLMClient._generate_cache_key`)
  * `metadata_code_extractor/core/models/llm_models.py`
    (response/config value models; `cache.py` imports the same model names
    from a `core.models.llm` module that is a sibling of `llm_models.py`
    carrying the same definitions, per the spec's single Response Models
    component)

Modelling conventions:
  * Wall-clock instants (`datetime.now()`, `time.time()`) are passed in
    explicitly as natural-number epoch seconds; every distinct clock read
    in a code path is a distinct parameter.
  * Python exceptions of the embedded functions are explicit return values
    (an `Option` error component, or a dedicated `raised` outcome); state
    is threaded so that the state at the raise point is observable.
  * JSON texts are modelled at two levels: an abstract syntax tree `JVal`
    for everything the standard `json` library parses/serializes (its
    dump/load round trip is the library's contract), plus faithful
    printers where the source inspects the rendered text (byte-length
    checks, hashing).  A stored file whose bytes do not parse as JSON is
    modelled by a dedicated `garbage` constructor.
  * Python `float` payloads are modelled by the exact rational values they
    denote (`json` round-trips floats exactly); their rendered text form
    is modelled abstractly and no theorem depends on it.
  * The `datetime.isoformat`/`fromisoformat` pair is modelled as an
    injective decimal rendering of the epoch second with a partial-inverse
    reading function; parse failure of a non-conforming string models
    `ValueError` exactly as the source's `except` clause sees it.
-/

set_option autoImplicit false
set_option maxRecDepth 100000

namespace MCE

/-! ### Decimal rendering and reading of natural numbers

`natRepr` models the decimal rendering of a Python `int` (as produced by
`json.dumps` for the hour bucket and by the modelled timestamp encoding);
`parseDec` is its partial inverse, used to model reading a stored
timestamp back.  All recursions are structural (fuel-based) so that the
definitions evaluate inside the kernel. -/

/-- The decimal digit character for `d` (meaningful for `d < 10`). -/
def digitChar (d : Nat) : Char := Char.ofNat (48 + d)

/-- Little-endian decimal digits of `n`, with `fuel` bounding recursion
depth; `digitsAux fuel n` is the digit list of `n` whenever `n ≤ fuel`. -/
def digitsAux : Nat → Nat → List Nat
  | 0, _ => []
  | fuel + 1, n => if n = 0 then [] else n % 10 :: digitsAux fuel (n / 10)

/-- Little-endian decimal digits of `n` (empty for `0`). -/
def natDigits (n : Nat) : List Nat := digitsAux n n

/-- Decimal rendering of a natural number. -/
def natRepr (n : Nat) : String :=
  if n = 0 then "0" else String.mk ((natDigits n).reverse.map digitChar)

/-- Decimal rendering of an integer. -/
def intRepr (i : Int) : String :=
  if i < 0 then "-" ++ natRepr i.natAbs else natRepr i.natAbs

/-- One step of decimal reading: accumulate a digit, fail on a non-digit. -/
def decStep : Option Nat → Char → Option Nat
  | none, _ => none
  | some acc, c => if c.isDigit then some (10 * acc + (c.toNat - 48)) else none

/-- Read a string of decimal digits as a natural number; `none` if the
string is empty or contains a non-digit character. -/
def parseDec (s : String) : Option Nat :=
  match s.data with
  | [] => none
  | cs => cs.foldl decStep (some 0)

/-- Value of a little-endian digit list. -/
def decValue : List Nat → Nat
  | [] => 0
  | d :: ds => d + 10 * decValue ds

theorem digitsAux_value : ∀ fuel n, n ≤ fuel → decValue (digitsAux fuel n) = n := by
  intro fuel
  induction fuel with
  | zero => intro n h; interval_cases n; rfl
  | succ f ih =>
      intro n h
      by_cases h0 : n = 0
      · subst h0; simp [digitsAux, decValue]
      · have hdiv : n / 10 ≤ f := by
          have : n / 10 < n := Nat.div_lt_self (Nat.pos_of_ne_zero h0) (by omega)
          omega
        simp only [digitsAux, h0, if_false, decValue]
        rw [ih _ hdiv]
        omega

theorem digitsAux_lt_ten : ∀ fuel n d, d ∈ digitsAux fuel n → d < 10 := by
  intro fuel
  induction fuel with
  | zero => intro n d h; simp [digitsAux] at h
  | succ f ih =>
      intro n d h
      by_cases h0 : n = 0
      · subst h0; simp [digitsAux] at h
      · simp only [digitsAux, h0, if_false, List.mem_cons] at h
        rcases h with h | h
        · subst h; exact Nat.mod_lt _ (by omega)
        · exact ih _ _ h

theorem digit_facts : ∀ d, d < 10 → (digitChar d).isDigit = true ∧ (digitChar d).toNat - 48 = d := by
  decide

theorem foldl_decStep_digits :
    ∀ ds : List Nat, (∀ d ∈ ds, d < 10) → ∀ a : Nat,
      (ds.reverse.map digitChar).foldl decStep (some a) =
        some (a * 10 ^ ds.length + decValue ds) := by
  intro ds
  induction ds with
  | nil => intro _ a; simp [decValue]
  | cons d tl ih =>
      intro hlt a
      have hd : d < 10 := hlt d (List.mem_cons_self d tl)
      have htl : ∀ x ∈ tl, x < 10 := fun x hx => hlt x (List.mem_cons_of_mem d hx)
      have h1 := (digit_facts d hd).1
      have h2 := (digit_facts d hd).2
      simp only [List.reverse_cons, List.map_append, List.foldl_append, ih htl a,
        List.map_cons, List.map_nil, List.foldl_cons, List.foldl_nil]
      simp only [decStep, h1, if_true]
      congr 1
      simp only [decValue, List.length_cons]
      rw [h2]
      ring

theorem digitsAux_ne_nil (fuel n : Nat) (h1 : 1 ≤ fuel) (h0 : n ≠ 0) :
    digitsAux fuel n ≠ [] := by
  match fuel, h1 with
  | f + 1, _ => simp [digitsAux, h0]

/-- Reading back the decimal rendering recovers the number. -/
theorem parseDec_natRepr (n : Nat) : parseDec (natRepr n) = some n := by
  by_cases h0 : n = 0
  · subst h0; decide
  · have hne : natDigits n ≠ [] := digitsAux_ne_nil n n (by omega) h0
    have hlt : ∀ d ∈ natDigits n, d < 10 := fun d hd => digitsAux_lt_ten n n d hd
    have hv : decValue (natDigits n) = n := digitsAux_value n n (Nat.le_refl n)
    have hfold := foldl_decStep_digits (natDigits n) hlt 0
    simp only [Nat.zero_mul, Nat.zero_add, hv] at hfold
    have hdata : (natRepr n).data = (natDigits n).reverse.map digitChar := by
      simp [natRepr, h0]
    unfold parseDec
    rw [hdata]
    rcases hm : (natDigits n).reverse.map digitChar with _ | ⟨c, cs⟩
    · exfalso
      simp at hm
      exact hne hm
    · show (c :: cs).foldl decStep (some 0) = some n
      rw [← hm]
      exact hfold

/-- Decimal rendering is injective. -/
theorem natRepr_inj {a b : Nat} (h : natRepr a = natRepr b) : a = b := by
  have ha := parseDec_natRepr a
  rw [h, parseDec_natRepr b] at ha
  exact (Option.some_inj.mp ha).symm

end MCE

namespace MCE

/-! ### MD5

`LLMClient._generate_cache_key` ends with
`hashlib.md5(cache_string.encode()).hexdigest()`.  The MD5 digest is
modelled bit-faithfully (RFC 1321) on byte lists, with 32-bit words as
naturals reduced `% 2^32` where overflow matters.  `md5Nat` is the
128-bit digest as a natural (words combined little-endian-first) and
`md5hexOf` renders the usual lowercase hex digest. -/

/-- The MD5 sine-derived round constants. -/
def md5K : List Nat :=
  [3614090360, 3905402710, 606105819, 3250441966,
   4118548399, 1200080426, 2821735955, 4249261313,
   1770035416, 2336552879, 4294925233, 2304563134,
   1804603682, 4254626195, 2792965006, 1236535329,
   4129170786, 3225465664, 643717713, 3921069994,
   3593408605, 38016083, 3634488961, 3889429448,
   568446438, 3275163606, 4107603335, 1163531501,
   2850285829, 4243563512, 1735328473, 2368359562,
   4294588738, 2272392833, 1839030562, 4259657740,
   2763975236, 1272893353, 4139469664, 3200236656,
   681279174, 3936430074, 3572445317, 76029189,
   3654602809, 3873151461, 530742520, 3299628645,
   4096336452, 1126891415, 2878612391, 4237533241,
   1700485571, 2399980690, 4293915773, 2240044497,
   1873313359, 4264355552, 2734768916, 1309151649,
   4149444226, 3174756917, 718787259, 3951481745]

/-- The MD5 per-round left-rotation amounts. -/
def md5S : List Nat :=
  [7, 12, 17, 22, 7, 12, 17, 22, 7, 12, 17, 22, 7, 12, 17, 22,
   5, 9, 14, 20, 5, 9, 14, 20, 5, 9, 14, 20, 5, 9, 14, 20,
   4, 11, 16, 23, 4, 11, 16, 23, 4, 11, 16, 23, 4, 11, 16, 23,
   6, 10, 15, 21, 6, 10, 15, 21, 6, 10, 15, 21, 6, 10, 15, 21]

/-- 32-bit left rotation (for `x < 2^32`). -/
def rotl32 (x s : Nat) : Nat := ((x <<< s) % 4294967296) ||| (x >>> (32 - s))

/-- The MD5 round mixing function (round selected by `i`). -/
def md5F (i b c d : Nat) : Nat :=
  if i < 16 then (b &&& c) ||| ((4294967295 ^^^ b) &&& d)
  else if i < 32 then (d &&& b) ||| ((4294967295 ^^^ d) &&& c)
  else if i < 48 then b ^^^ c ^^^ d
  else c ^^^ (b ||| (4294967295 ^^^ d))

/-- The MD5 message-word index for round `i`. -/
def md5G (i : Nat) : Nat :=
  if i < 16 then i
  else if i < 32 then (5 * i + 1) % 16
  else if i < 48 then (3 * i + 5) % 16
  else (7 * i) % 16

/-- One MD5 round on state `(a, b, c, d)` with message words `M`. -/
def md5Step (M : List Nat) (st : Nat × Nat × Nat × Nat) (i : Nat) :
    Nat × Nat × Nat × Nat :=
  let f := (md5F i st.2.1 st.2.2.1 st.2.2.2 + st.1 + md5K.getD i 0
            + M.getD (md5G i) 0) % 4294967296
  (st.2.2.2, (st.2.1 + rotl32 f (md5S.getD i 0)) % 4294967296, st.2.1, st.2.2.1)

/-- Process one 16-word block. -/
def md5Block (st : Nat × Nat × Nat × Nat) (M : List Nat) :
    Nat × Nat × Nat × Nat :=
  let r := (List.range 64).foldl (md5Step M) st
  ((st.1 + r.1) % 4294967296, (st.2.1 + r.2.1) % 4294967296,
   (st.2.2.1 + r.2.2.1) % 4294967296, (st.2.2.2 + r.2.2.2) % 4294967296)

/-- Little-endian 32-bit words from a byte list (length a multiple of 4). -/
def leWords : List Nat → List Nat
  | b0 :: b1 :: b2 :: b3 :: rest =>
      (b0 + 256 * b1 + 65536 * b2 + 16777216 * b3) :: leWords rest
  | _ => []

/-- Split a word list into 16-word blocks (`fuel` bounds recursion). -/
def chunk16 : Nat → List Nat → List (List Nat)
  | 0, _ => []
  | _, [] => []
  | fuel + 1, ws => ws.take 16 :: chunk16 fuel (ws.drop 16)

/-- The eight little-endian bytes of a 64-bit length field. -/
def leBytes8 (n : Nat) : List Nat :=
  [n % 256, n / 256 % 256, n / 65536 % 256, n / 16777216 % 256,
   n / 4294967296 % 256, n / 1099511627776 % 256,
   n / 281474976710656 % 256, n / 72057594037927936 % 256]

/-- MD5 padding: `0x80`, zeros to 56 mod 64, then the bit length. -/
def md5Pad (msg : List Nat) : List Nat :=
  msg ++ 128 :: List.replicate ((120 - (msg.length + 1) % 64) % 64) 0
      ++ leBytes8 ((msg.length * 8) % 18446744073709551616)

/-- The four MD5 state words of a byte message. -/
def md5Words (bytes : List Nat) : Nat × Nat × Nat × Nat :=
  (chunk16 (leWords (md5Pad bytes)).length (leWords (md5Pad bytes))).foldl
    md5Block (1732584193, 4023233417, 2562383102, 271733878)

/-- The 128-bit MD5 digest as a natural number whose little-endian bytes
are the digest bytes in output order. -/
def md5Nat (bytes : List Nat) : Nat :=
  (md5Words bytes).1 + 4294967296 * (md5Words bytes).2.1
    + 18446744073709551616 * (md5Words bytes).2.2.1
    + 79228162514264337593543950336 * (md5Words bytes).2.2.2

/-- Lowercase hexadecimal digit character. -/
def hexDigitChar (d : Nat) : Char :=
  if d < 10 then Char.ofNat (48 + d) else Char.ofNat (87 + d)

/-- Two hex characters of a byte, high nibble first. -/
def byteHex (b : Nat) : List Char := [hexDigitChar (b / 16), hexDigitChar (b % 16)]

/-- Hex string of the 16 little-endian bytes of a 128-bit natural. -/
def hex16LE (n : Nat) : String :=
  String.mk (byteHex (n % 256) ++ byteHex (n / 256 % 256)
    ++ byteHex (n / 256 ^ 2 % 256) ++ byteHex (n / 256 ^ 3 % 256)
    ++ byteHex (n / 256 ^ 4 % 256) ++ byteHex (n / 256 ^ 5 % 256)
    ++ byteHex (n / 256 ^ 6 % 256) ++ byteHex (n / 256 ^ 7 % 256)
    ++ byteHex (n / 256 ^ 8 % 256) ++ byteHex (n / 256 ^ 9 % 256)
    ++ byteHex (n / 256 ^ 10 % 256) ++ byteHex (n / 256 ^ 11 % 256)
    ++ byteHex (n / 256 ^ 12 % 256) ++ byteHex (n / 256 ^ 13 % 256)
    ++ byteHex (n / 256 ^ 14 % 256) ++ byteHex (n / 256 ^ 15 % 256))

/-- UTF-8 encoding of one character (models Python `str.encode()`). -/
def utf8Bytes (c : Char) : List Nat :=
  let n := c.toNat
  if n < 128 then [n]
  else if n < 2048 then [192 + n / 64, 128 + n % 64]
  else if n < 65536 then [224 + n / 4096, 128 + n / 64 % 64, 128 + n % 64]
  else [240 + n / 262144, 128 + n / 4096 % 64, 128 + n / 64 % 64, 128 + n % 64]

/-- UTF-8 bytes of a string. -/
def strBytes (s : String) : List Nat := (s.data.map utf8Bytes).flatten

/-- `hashlib.md5(s.encode()).hexdigest()`. -/
def md5hexOf (s : String) : String := hex16LE (md5Nat (strBytes s))

/-- Sanity anchor against RFC 1321's test suite: the model reproduces
the published digest of `"abc"`. -/
theorem md5hexOf_abc : md5hexOf "abc" = "900150983cd24fb0d6963f7d28e17f72" := by
  decide

/-- Sanity anchor: the model reproduces the published digest of the
empty message. -/
theorem md5hexOf_empty : md5hexOf "" = "d41d8cd98f00b204e9800998ecf8427e" := by
  decide

end MCE

namespace MCE

/-! ### Python string stripping

`set` validates keys with `not key or not key.strip()`.  `pyStrip` models
`str.strip()` (leading/trailing whitespace removal; the ASCII whitespace
characters, which cover every key the system produces). -/

/-- ASCII whitespace as stripped by Python `str.strip()`. -/
def isPySpace (c : Char) : Bool :=
  c = ' ' || c = '\t' || c = '\n' || c = '\x0b' || c = '\x0c' || c = '\r'

/-- `str.strip()`. -/
def pyStrip (s : String) : String :=
  String.mk (((s.data.dropWhile isPySpace).reverse.dropWhile isPySpace).reverse)

/-- `not key or not key.strip()`: the condition under which both cache
backends reject a key. -/
def invalidKey (key : String) : Bool :=
  key.data.isEmpty || (pyStrip key).data.isEmpty

/-! ### JSON values

Abstract syntax of the JSON documents the subsystem produces and
consumes.  Python `int` and `float` payloads are kept distinct, floats
carried as the exact rationals they denote. -/

inductive JVal where
  | null
  | bool (b : Bool)
  | intNum (n : Int)
  | floatNum (q : Rat)
  | str (s : String)
  | arr (xs : List JVal)
  | obj (fields : List (String × JVal))

/-- Four hex digits of a code unit (for `\uXXXX` escapes). -/
def hex4 (n : Nat) : String :=
  String.mk [hexDigitChar (n / 4096 % 16), hexDigitChar (n / 256 % 16),
    hexDigitChar (n / 16 % 16), hexDigitChar (n % 16)]

/-- JSON escaping of one character, `ensure_ascii` style as in
`json.dumps`' default. -/
def escapeChar (c : Char) : String :=
  if c = '"' then "\\\""
  else if c = '\\' then "\\\\"
  else if c = '\n' then "\\n"
  else if c = '\t' then "\\t"
  else if c = '\r' then "\\r"
  else if c.toNat = 8 then "\\b"
  else if c.toNat = 12 then "\\f"
  else if c.toNat < 32 then "\\u" ++ hex4 c.toNat
  else if c.toNat < 127 then String.mk [c]
  else if c.toNat < 65536 then "\\u" ++ hex4 c.toNat
  else
    "\\u" ++ hex4 (55296 + (c.toNat - 65536) / 1024)
      ++ "\\u" ++ hex4 (56320 + (c.toNat - 65536) % 1024)

/-- A JSON string literal with surrounding quotes. -/
def escapeString (s : String) : String :=
  "\"" ++ String.join (s.data.map escapeChar) ++ "\""

/-- Fractional decimal digits of `r / d`, stopping when the remainder
vanishes (`fuel`-bounded; exact for the terminating decimals that Python
float payloads denote). -/
def fracDigits : Nat → Nat → Nat → List Nat
  | 0, _, _ => []
  | fuel + 1, r, d => if r = 0 then [] else 10 * r / d :: fracDigits fuel (10 * r % d) d

/-- Rendering of a float payload: sign, integer part, then the decimal
expansion (a modelling of `repr(float)`; no theorem depends on the
rendered form). -/
def floatRepr (q : Rat) : String :=
  let sign := if q.num < 0 then "-" else ""
  let np := q.num.natAbs
  let frac := fracDigits 32 (np % q.den) q.den
  sign ++ natRepr (np / q.den) ++ "."
    ++ (if frac.isEmpty then "0" else String.mk (frac.map digitChar))

/-- Concatenation with separators (used by the printers so that every
definition unfolds structurally). -/
def joinSep (sep : String) : List String → String
  | [] => ""
  | [x] => x
  | x :: xs => x ++ sep ++ joinSep sep xs

/-- Insert a field into a key-sorted field list (stable). -/
def insertField (p : String × JVal) : List (String × JVal) → List (String × JVal)
  | [] => [p]
  | q :: qs => if compare p.1 q.1 = Ordering.gt then q :: insertField p qs
               else p :: q :: qs

/-- Sort object fields by key (models `sort_keys=True`; Python `sorted`
is stable and dict keys are unique). -/
def sortFields (fs : List (String × JVal)) : List (String × JVal) :=
  fs.foldr insertField []

/-- Nesting-depth fuel for the printers.  The recursion is fuel-bounded so
that the printers evaluate inside the kernel; every JSON document this
subsystem serializes nests well below this depth. -/
def jsonFuel : Nat := 32

/-- `json.dumps(v, sort_keys=True)`: compact separators `", "`/`": "`,
object keys sorted recursively.  Used by `_generate_cache_key`. -/
def dumpsSortedF : Nat → JVal → String
  | _, .null => "null"
  | _, .bool b => if b then "true" else "false"
  | _, .intNum n => intRepr n
  | _, .floatNum q => floatRepr q
  | _, .str s => escapeString s
  | 0, .arr _ => ""
  | 0, .obj _ => ""
  | fuel + 1, .arr xs => "[" ++ joinSep ", " (xs.map (dumpsSortedF fuel)) ++ "]"
  | fuel + 1, .obj fs =>
      "\x7b" ++ joinSep ", " ((sortFields fs).map fun kv =>
        escapeString kv.1 ++ ": " ++ dumpsSortedF fuel kv.2) ++ "\x7d"

def dumpsSorted (j : JVal) : String := dumpsSortedF jsonFuel j

/-- `n` spaces. -/
def spaces (n : Nat) : String := String.mk (List.replicate n ' ')

/-- `json.dumps(v, indent=2)`: item separator `","` + newline with
indentation, key separator `": "`, empty containers printed inline.
Used by `FileLLMCache.set` for the byte-size check and the file body. -/
def dumpsIndF : Nat → Nat → JVal → String
  | _, _, .null => "null"
  | _, _, .bool b => if b then "true" else "false"
  | _, _, .intNum n => intRepr n
  | _, _, .floatNum q => floatRepr q
  | _, _, .str s => escapeString s
  | 0, _, .arr _ => ""
  | 0, _, .obj _ => ""
  | _ + 1, _, .arr [] => "[]"
  | _ + 1, _, .obj [] => "{}"
  | fuel + 1, ind, .arr xs =>
      "[\n" ++ joinSep ",\n" (xs.map fun x => spaces (ind + 2) ++ dumpsIndF fuel (ind + 2) x)
        ++ "\n" ++ spaces ind ++ "]"
  | fuel + 1, ind, .obj fs =>
      "\x7b\n" ++ joinSep ",\n" (fs.map fun kv =>
          spaces (ind + 2) ++ escapeString kv.1 ++ ": " ++ dumpsIndF fuel (ind + 2) kv.2)
        ++ "\n" ++ spaces ind ++ "\x7d"

def dumpsIndent2 (j : JVal) : String := dumpsIndF jsonFuel 0 j

/-- UTF-8 byte length of a rendered JSON text
(`len(cache_json.encode('utf-8'))`). -/
def utf8Len (s : String) : Nat := (strBytes s).length

end MCE

namespace MCE

/-! ### Value models (`core/models/llm_models.py`)

Pydantic models become plain structures; `Optional` fields become
`Option`; `float` payloads are the exact rationals they denote;
`Dict[str, int]` usage maps are ordered pair lists (Python dicts are
ordered); the `extra = "allow"` escape hatch of the response models is
not modelled (responses carry exactly their declared fields). -/

inductive MessageRole where
  | system | user | assistant | function
deriving DecidableEq

/-- The string value of a role (`use_enum_values`). -/
def roleValue : MessageRole → String
  | .system => "system"
  | .user => "user"
  | .assistant => "assistant"
  | .function => "function"

structure ChatMessage where
  role : MessageRole
  content : String
  name : Option String := none
  function_call : Option (List (String × JVal)) := none

structure ModelConfig where
  model_name : String
  temperature : Rat := 7 / 10
  max_tokens : Int := 1024
  top_p : Option Rat := none
  frequency_penalty : Option Rat := none
  presence_penalty : Option Rat := none
  stop : Option (String ⊕ List String) := none

inductive EncodingFormat where
  | float | base64
deriving DecidableEq

structure EmbeddingConfig where
  model_name : String
  dimensions : Option Int := none
  encoding_format : EncodingFormat := .float

structure LLMResponse where
  content : String
  model : String
  usage : Option (List (String × Int)) := none
  finish_reason : Option String := none
deriving DecidableEq

structure EmbeddingResponse where
  embeddings : List (List Rat)
  model : String
  usage : Option (List (String × Int)) := none
deriving DecidableEq

/-- The union `Union[LLMResponse, EmbeddingResponse]` of values a cache
stores (the two `isinstance`-accepted kinds). -/
inductive CachedResponse where
  | chat (r : LLMResponse)
  | embed (r : EmbeddingResponse)
deriving DecidableEq

/-- The argument Python callers may pass to `set` as `response`:
a supported response, `None`, or any other object. -/
inductive SetArg where
  | resp (r : CachedResponse)
  | pynone
  | unsupported

/-! ### `model_dump()` serialization to JSON values -/

def optJ {α : Type} (f : α → JVal) : Option α → JVal
  | none => .null
  | some x => f x

def usageJ (u : Option (List (String × Int))) : JVal :=
  optJ (fun m => .obj (m.map fun kv => (kv.1, .intNum kv.2))) u

def chatMessageDump (m : ChatMessage) : JVal :=
  .obj [("role", .str (roleValue m.role)), ("content", .str m.content),
        ("name", optJ JVal.str m.name), ("function_call", optJ JVal.obj m.function_call)]

def stopJ : String ⊕ List String → JVal
  | .inl s => .str s
  | .inr l => .arr (l.map JVal.str)

def modelConfigDump (c : ModelConfig) : JVal :=
  .obj [("model_name", .str c.model_name), ("temperature", .floatNum c.temperature),
        ("max_tokens", .intNum c.max_tokens), ("top_p", optJ JVal.floatNum c.top_p),
        ("frequency_penalty", optJ JVal.floatNum c.frequency_penalty),
        ("presence_penalty", optJ JVal.floatNum c.presence_penalty),
        ("stop", optJ stopJ c.stop)]

def encodingFormatValue : EncodingFormat → String
  | .float => "float"
  | .base64 => "base64"

def embeddingConfigDump (c : EmbeddingConfig) : JVal :=
  .obj [("model_name", .str c.model_name), ("dimensions", optJ JVal.intNum c.dimensions),
        ("encoding_format", .str (encodingFormatValue c.encoding_format))]

/-- `model_dump()` fields of an `LLMResponse`, in declaration order. -/
def llmResponseFields (r : LLMResponse) : List (String × JVal) :=
  [("content", .str r.content), ("model", .str r.model), ("usage", usageJ r.usage),
   ("finish_reason", optJ JVal.str r.finish_reason)]

/-- `model_dump()` fields of an `EmbeddingResponse`, in declaration order. -/
def embeddingResponseFields (r : EmbeddingResponse) : List (String × JVal) :=
  [("embeddings", .arr (r.embeddings.map fun v => .arr (v.map JVal.floatNum))),
   ("model", .str r.model), ("usage", usageJ r.usage)]

/-- The tag value `response.__class__.__name__`. -/
def respTypeName : CachedResponse → String
  | .chat _ => "LLMResponse"
  | .embed _ => "EmbeddingResponse"

/-- `response.model_dump()` with `response_type` appended (dict insertion
order: the model fields first, then the tag added by `set`). -/
def respDump : CachedResponse → JVal
  | .chat r => .obj (llmResponseFields r ++ [("response_type", .str "LLMResponse")])
  | .embed r => .obj (embeddingResponseFields r ++ [("response_type", .str "EmbeddingResponse")])

/-- The file body `{"response": ..., "expires_at": ...}` written by
`FileLLMCache.set` (the timestamp rendered with the modelled
`isoformat`, an injective decimal encoding of the epoch second). -/
def cacheFileJVal (r : CachedResponse) (expires_at : Nat) : JVal :=
  .obj [("response", respDump r), ("expires_at", .str (natRepr expires_at))]

/-! ### Reconstruction (`LLMResponse(**dict)` in `FileLLMCache.get`)

Partial readers returning `none` exactly where pydantic validation
raises `ValueError` (missing required field, wrong shape).  Unknown
extra keys are ignored; the lax numeric coercion of int-valued JSON
numbers into `float` fields is modelled, other coercions are not
exercised by this subsystem. -/

/-- First binding of key `k` (Python dicts have unique keys). -/
def getField {β : Type} : List (String × β) → String → Option β
  | [], _ => none
  | (k', v) :: rest, k => if k' = k then some v else getField rest k

def asStr : JVal → Option String
  | .str s => some s
  | _ => none

/-- Read a JSON object's bindings as a `Dict[str, int]`. -/
def intPairsOf : List (String × JVal) → Option (List (String × Int))
  | [] => some []
  | (k, JVal.intNum n) :: rest => (intPairsOf rest).map (fun l => (k, n) :: l)
  | _ => none

def asIntPairs : JVal → Option (List (String × Int))
  | .obj fs => intPairsOf fs
  | _ => none

/-- Read a JSON array as a `List[float]` (pydantic coerces int-valued
JSON numbers into `float` fields). -/
def ratValsOf : List JVal → Option (List Rat)
  | [] => some []
  | JVal.floatNum q :: rest => (ratValsOf rest).map (fun l => q :: l)
  | JVal.intNum n :: rest => (ratValsOf rest).map (fun l => (n : Rat) :: l)
  | _ => none

def asRatList : JVal → Option (List Rat)
  | .arr xs => ratValsOf xs
  | _ => none

def ratRowsOf : List JVal → Option (List (List Rat))
  | [] => some []
  | x :: rest =>
      match asRatList x, ratRowsOf rest with
      | some v, some l => some (v :: l)
      | _, _ => none

def asRatListList : JVal → Option (List (List Rat))
  | .arr xs => ratRowsOf xs
  | _ => none

/-- An optional field: missing or `null` is `None`; present values must
read back, else validation fails. -/
def parseOptField {α : Type} (fs : List (String × JVal)) (k : String)
    (f : JVal → Option α) : Option (Option α) :=
  match getField fs k with
  | none => some none
  | some .null => some none
  | some v => (f v).map some

/-- A required string field. -/
def parseStrField (fs : List (String × JVal)) (k : String) : Option String :=
  (getField fs k).bind asStr

/-- `LLMResponse(**{k: v for k, v in d.items() if k != "response_type"})`. -/
def parseLLMResponse (fs : List (String × JVal)) : Option LLMResponse :=
  match parseStrField fs "content", parseStrField fs "model",
      parseOptField fs "usage" asIntPairs, parseOptField fs "finish_reason" asStr with
  | some c, some m, some u, some fr => some ⟨c, m, u, fr⟩
  | _, _, _, _ => none

/-- `EmbeddingResponse(**{k: v for k, v in d.items() if k != "response_type"})`. -/
def parseEmbeddingResponse (fs : List (String × JVal)) : Option EmbeddingResponse :=
  match (getField fs "embeddings").bind asRatListList, parseStrField fs "model",
      parseOptField fs "usage" asIntPairs with
  | some e, some m, some u => some ⟨e, m, u⟩
  | _, _, _ => none

end MCE

namespace MCE

/-! ### Shared dictionary operations (Python `dict` on string keys) -/

/-- `d[k] = v`: overwrite in place, else append (Python dicts are ordered
and keep the original position on overwrite). -/
def dictSet {β : Type} : List (String × β) → String → β → List (String × β)
  | [], k, v => [(k, v)]
  | (k', v') :: rest, k, v =>
      if k' = k then (k, v) :: rest else (k', v') :: dictSet rest k v

/-- `del d[k]` / `Path.unlink`. -/
def dictDel {β : Type} (l : List (String × β)) (k : String) : List (String × β) :=
  l.filter fun kv => kv.1 != k

/-- `LLMCacheError`, distinguished in the source by its message text:
empty key, `None` response, unsupported type, size cap exceeded. -/
inductive LLMCacheError where
  | emptyKey
  | noneResponse
  | unsupportedType
  | responseTooLarge
deriving DecidableEq

/-- `ttl = ttl or self.default_ttl`: a falsy `ttl` (absent, or zero)
falls back to the default. -/
def effTtl (default_ttl : Nat) : Option Nat → Nat
  | none => default_ttl
  | some t => if t = 0 then default_ttl else t

/-! ### `InMemoryLLMCache` -/

structure MemEntry where
  response : CachedResponse
  expires_at : Nat
deriving DecidableEq

/-- State of an `InMemoryLLMCache` (construction validated
`default_ttl > 0`; theorems carry that as a hypothesis). -/
structure InMemoryLLMCache where
  default_ttl : Nat
  cache : List (String × MemEntry)
deriving DecidableEq

/-- `InMemoryLLMCache.get` at clock instant `now`: the returned value and
the state after the call's lazy deletion of an expired entry. -/
def memGet (c : InMemoryLLMCache) (key : String) (now : Nat) :
    Option CachedResponse × InMemoryLLMCache :=
  match getField c.cache key with
  | none => (none, c)
  | some entry =>
      if now > entry.expires_at then
        (none, { c with cache := dictDel c.cache key })
      else
        (some entry.response, c)

/-- `self._cache[key] = {...}`. -/
def memStore (c : InMemoryLLMCache) (key : String) (e : MemEntry) : InMemoryLLMCache :=
  { c with cache := dictSet c.cache key e }

/-- `InMemoryLLMCache.set` at instant `now`: the raised error (if any)
and the state at return/raise time.  Validation precedes any mutation,
as in the source. -/
def memSet (c : InMemoryLLMCache) (key : String) (response : SetArg)
    (ttl : Option Nat) (now : Nat) : Option LLMCacheError × InMemoryLLMCache :=
  if invalidKey key then (some .emptyKey, c)
  else match response with
    | .pynone => (some .noneResponse, c)
    | .unsupported => (some .unsupportedType, c)
    | .resp r =>
        (none, memStore c key ⟨r, now + effTtl c.default_ttl ttl⟩)

/-- `InMemoryLLMCache.clear`. -/
def memClear (c : InMemoryLLMCache) : InMemoryLLMCache := { c with cache := [] }

/-- `InMemoryLLMCache._cleanup_expired`: delete every entry with
`now > expires_at`. -/
def memCleanup (c : InMemoryLLMCache) (now : Nat) : InMemoryLLMCache :=
  { c with cache := c.cache.filter fun kv => ¬ now > kv.2.expires_at }

/-- `InMemoryLLMCache.size`: cleanup, then count. -/
def memSize (c : InMemoryLLMCache) (now : Nat) : Nat × InMemoryLLMCache :=
  ((memCleanup c now).cache.length, memCleanup c now)

/-! ### `FileLLMCache`

The cache directory is modelled as a mapping from file name to file
content.  Content is either a parsed JSON document (`json.load`'s result
on the bytes `set` wrote — the `json` library's dump/load round trip) or
`garbage`, bytes that `json.load` rejects with `JSONDecodeError`. -/

inductive FileData where
  | json (j : JVal)
  | garbage

/-- State of a `FileLLMCache` (construction validated `default_ttl > 0`
and `max_file_size > 0` and created the directory). -/
structure FileLLMCache where
  default_ttl : Nat
  max_file_size : Nat
  files : List (String × FileData)

/-- The characters `re.sub(r'[<>:"/\\|?*]', '_', key)` replaces. -/
def unsafeChar (c : Char) : Bool :=
  c = '<' || c = '>' || c = ':' || c = '"' || c = '/' || c = '\\' ||
    c = '|' || c = '?' || c = '*'

/-- `_get_cache_file_path`: sanitized key plus the `.json` extension. -/
def sanitizeKey (key : String) : String :=
  String.mk (key.data.map fun c => if unsafeChar c then '_' else c)

def cacheFileName (key : String) : String := sanitizeKey key ++ ".json"

/-- Remove a file (`unlink(missing_ok=True)`). -/
def delFile (c : FileLLMCache) (path : String) : FileLLMCache :=
  { c with files := dictDel c.files path }

/-- Result of `FileLLMCache.get`: a reconstructed response, a miss, or a
Python exception type that the source's `except (json.JSONDecodeError,
KeyError, ValueError, OSError)` clause does not catch. -/
inductive GetOutcome where
  | hit (r : CachedResponse)
  | absent
  | raised
deriving DecidableEq

/-- `FileLLMCache.get` at instant `now`. -/
def fileGet (c : FileLLMCache) (key : String) (now : Nat) :
    GetOutcome × FileLLMCache :=
  let path := cacheFileName key
  match getField c.files path with
  | none => (.absent, c)
  | some .garbage => (.absent, delFile c path)
  | some (.json j) =>
      match j with
      | .obj fs =>
          match getField fs "expires_at" with
          | none => (.absent, delFile c path)
          | some (.str ts) =>
              match parseDec ts with
              | none => (.absent, delFile c path)
              | some expires_at =>
                  if now > expires_at then (.absent, delFile c path)
                  else
                    match getField fs "response" with
                    | none => (.absent, delFile c path)
                    | some (.obj rfs) =>
                        match getField rfs "response_type" with
                        | some (.str "LLMResponse") =>
                            match parseLLMResponse
                                (rfs.filter fun kv => kv.1 != "response_type") with
                            | some r => (.hit (.chat r), c)
                            | none => (.absent, delFile c path)
                        | some (.str "EmbeddingResponse") =>
                            match parseEmbeddingResponse
                                (rfs.filter fun kv => kv.1 != "response_type") with
                            | some r => (.hit (.embed r), c)
                            | none => (.absent, delFile c path)
                        | _ => (.absent, delFile c path)
                    | some _ => (.raised, c)
          | some _ => (.raised, c)
      | _ => (.raised, c)

/-- The write `f.write(cache_json)`: the stored content is the parsed
form of the rendered body (the `json` library's round trip). -/
def fileStore (c : FileLLMCache) (key : String) (body : JVal) : FileLLMCache :=
  { c with files := dictSet c.files (cacheFileName key) (.json body) }

/-- `FileLLMCache.set` at instant `now`: validations, serialization, the
byte-size check, then (and only then) the write. -/
def fileSet (c : FileLLMCache) (key : String) (response : SetArg)
    (ttl : Option Nat) (now : Nat) : Option LLMCacheError × FileLLMCache :=
  if invalidKey key then (some .emptyKey, c)
  else match response with
    | .pynone => (some .noneResponse, c)
    | .unsupported => (some .unsupportedType, c)
    | .resp r =>
        let body := cacheFileJVal r (now + effTtl c.default_ttl ttl)
        if utf8Len (dumpsIndent2 body) > c.max_file_size then
          (some .responseTooLarge, c)
        else
          (none, fileStore c key body)

/-- The `cache_dir.glob("*.json")` name filter, as a structurally
evaluable suffix test. -/
def matchesJsonGlob (s : String) : Bool :=
  List.isPrefixOf (".json".data.reverse) s.data.reverse

/-- `FileLLMCache.clear`: unlink every `*.json` file. -/
def fileClear (c : FileLLMCache) : FileLLMCache :=
  { c with files := c.files.filter fun kv => ¬ matchesJsonGlob kv.1 }

/-- `FileLLMCache.size`: the number of `*.json` files, with no expiry
filtering and no clock read. -/
def fileSize (c : FileLLMCache) : Nat :=
  (c.files.filter fun kv => matchesJsonGlob kv.1).length

end MCE

namespace MCE

/-! ### `LLMClient` (`core/llm/client.py`)

The facade with a cache attached (the in-memory backend) and a provider
adapter whose invocations are counted.  Each invocation of the facade has
two explicit clock phases: `tLookup`, the wall clock during key
derivation and cache read before the provider `await`, and `tStore`, the
wall clock during key re-derivation and cache write after it (the
provider call is the code path's only suspension point). -/

/-- `_generate_cache_key` request data: chat messages or embedding texts. -/
inductive KeyData where
  | messages (msgs : List ChatMessage)
  | texts (ts : List String)

/-- The `data_dict` serialization: message dicts when the probe
`isinstance(data, list) and data and isinstance(data[0], ChatMessage)`
succeeds, the raw list otherwise. -/
def keyDataJ : KeyData → JVal
  | .messages [] => .arr []
  | .messages msgs => .arr (msgs.map chatMessageDump)
  | .texts ts => .arr (ts.map JVal.str)

/-- `_generate_cache_key` configuration: model or embedding config. -/
inductive ConfigData where
  | model (c : ModelConfig)
  | embedding (c : EmbeddingConfig)

def configJ : ConfigData → JVal
  | .model c => modelConfigDump c
  | .embedding c => embeddingConfigDump c

/-- The `cache_data` dict (insertion order `data`, `config`,
`timestamp`; the timestamp is the hour bucket `int(time.time() / 3600)`
of the moment the key is derived). -/
def cacheKeyJ (d : KeyData) (c : ConfigData) (hour : Nat) : JVal :=
  .obj [("data", keyDataJ d), ("config", configJ c), ("timestamp", .intNum hour)]

/-- The deterministically serialized fingerprint
`json.dumps(cache_data, sort_keys=True)`. -/
def cacheKeyString (d : KeyData) (c : ConfigData) (hour : Nat) : String :=
  dumpsSorted (cacheKeyJ d c hour)

/-- `_generate_cache_key`: the MD5 hex digest of the fingerprint. -/
def generateCacheKey (d : KeyData) (c : ConfigData) (hour : Nat) : String :=
  md5hexOf (cacheKeyString d c hour)

/-- The hour bucket of an epoch second. -/
def hourOf (t : Nat) : Nat := t / 3600

/-- A provider adapter with deterministic responses and fixed
availability; the facade's state counts its invocations. -/
structure CountingAdapter where
  respond : List ChatMessage → ModelConfig → LLMResponse
  respondEmb : List String → EmbeddingConfig → EmbeddingResponse
  available : Bool

structure ClientState where
  calls : Nat
  cache : InMemoryLLMCache
deriving DecidableEq

/-- Errors of the facade: `LLMClientError("Messages cannot be empty")`
(or texts), `LLMProviderError("Provider is not available")`, and an
`LLMCacheError` escaping from `cache.set` (nothing in the facade catches
one). -/
inductive ClientError where
  | emptyRequest
  | providerUnavailable
  | cacheRaised
deriving DecidableEq

/-- `LLMClient.get_chat_completion` with a cache attached.  The returned
value is whatever the cache or the provider yields (the source returns a
cached object without re-checking its kind). -/
def getChatCompletion (ad : CountingAdapter) (st : ClientState)
    (msgs : List ChatMessage) (cfg : ModelConfig) (tLookup tStore : Nat) :
    Except ClientError CachedResponse × ClientState :=
  if msgs.isEmpty then (.error .emptyRequest, st)
  else if ad.available = false then (.error .providerUnavailable, st)
  else
    let key1 := generateCacheKey (.messages msgs) (.model cfg) (hourOf tLookup)
    match memGet st.cache key1 tLookup with
    | (some cached, cache') => (.ok cached, { st with cache := cache' })
    | (none, cache') =>
        let resp := ad.respond msgs cfg
        let key2 := generateCacheKey (.messages msgs) (.model cfg) (hourOf tStore)
        match memSet cache' key2 (.resp (.chat resp)) none tStore with
        | (some _, cache'') => (.error .cacheRaised, ⟨st.calls + 1, cache''⟩)
        | (none, cache'') => (.ok (.chat resp), ⟨st.calls + 1, cache''⟩)

/-- `LLMClient.generate_embeddings` with a cache attached (the identical
shape with the embedding types). -/
def generateEmbeddings (ad : CountingAdapter) (st : ClientState)
    (texts : List String) (cfg : EmbeddingConfig) (tLookup tStore : Nat) :
    Except ClientError CachedResponse × ClientState :=
  if texts.isEmpty then (.error .emptyRequest, st)
  else if ad.available = false then (.error .providerUnavailable, st)
  else
    let key1 := generateCacheKey (.texts texts) (.embedding cfg) (hourOf tLookup)
    match memGet st.cache key1 tLookup with
    | (some cached, cache') => (.ok cached, { st with cache := cache' })
    | (none, cache') =>
        let resp := ad.respondEmb texts cfg
        let key2 := generateCacheKey (.texts texts) (.embedding cfg) (hourOf tStore)
        match memSet cache' key2 (.resp (.embed resp)) none tStore with
        | (some _, cache'') => (.error .cacheRaised, ⟨st.calls + 1, cache''⟩)
        | (none, cache'') => (.ok (.embed resp), ⟨st.calls + 1, cache''⟩)

end MCE

namespace MCE

/-! ### Supporting lemmas -/

theorem getField_dictSet_self {β : Type} (l : List (String × β)) (k : String) (v : β) :
    getField (dictSet l k v) k = some v := by
  induction l with
  | nil => simp [dictSet, getField]
  | cons p rest ih =>
      by_cases h : p.1 = k
      · simp [dictSet, h, getField]
      · simp [dictSet, h, getField, ih]

theorem getField_dictSet_other {β : Type} (l : List (String × β)) (k k' : String)
    (v : β) (h : k ≠ k') : getField (dictSet l k v) k' = getField l k' := by
  induction l with
  | nil => simp [dictSet, getField, h]
  | cons p rest ih =>
      by_cases hp : p.1 = k
      · simp [dictSet, hp, getField, h]
      · simp [dictSet, hp, getField, ih]

theorem getField_dictDel_self {β : Type} (l : List (String × β)) (k : String) :
    getField (dictDel l k) k = none := by
  induction l with
  | nil => rfl
  | cons p rest ih =>
      rw [dictDel] at ih ⊢
      by_cases h : p.1 = k
      · have hp : (p.1 != k) = false := by simp [h]
        simp only [List.filter_cons, hp, Bool.false_eq_true, if_false]
        exact ih
      · have hp : (p.1 != k) = true := by simp [h]
        simp only [List.filter_cons, hp, if_true]
        rw [show getField (p :: List.filter (fun kv => kv.1 != k) rest) k
            = if p.1 = k then some p.2 else getField (List.filter (fun kv => kv.1 != k) rest) k
          from rfl]
        simp [h, ih]

/-- The last element of a list survives `dropWhile` when the predicate
rejects it. -/
theorem dropWhile_append_ne_nil {α : Type} (p : α → Bool) (l : List α) (c : α)
    (hc : p c = false) : (l ++ [c]).dropWhile p ≠ [] := by
  induction l with
  | nil => simp [List.dropWhile, hc]
  | cons x xs ih =>
      by_cases hx : p x = true
      · simpa [List.dropWhile, hx] using ih
      · simp only [Bool.not_eq_true] at hx
        simp [List.dropWhile, hx]

theorem hexDigitChar_not_space : ∀ d, d < 16 → isPySpace (hexDigitChar d) = false := by
  decide

/-- Stripping a string whose first character is not whitespace leaves a
nonempty string. -/
theorem pyStrip_cons_ne_nil (c : Char) (cs : List Char) (hc : isPySpace c = false) :
    (pyStrip (String.mk (c :: cs))).data ≠ [] := by
  show (((((c :: cs).dropWhile isPySpace).reverse).dropWhile isPySpace).reverse) ≠ []
  have h1 : (c :: cs).dropWhile isPySpace = c :: cs := by
    simp [List.dropWhile, hc]
  rw [h1]
  intro hcontra
  have h2 : ((c :: cs).reverse).dropWhile isPySpace ≠ [] := by
    have hrv : (c :: cs).reverse = cs.reverse ++ [c] := by simp
    rw [hrv]
    exact dropWhile_append_ne_nil isPySpace cs.reverse c hc
  exact h2 (List.reverse_eq_nil_iff.mp hcontra)

/-- A string whose first character is not whitespace passes both
backends' key validation. -/
theorem invalidKey_mk_cons (c : Char) (l : List Char) (hc : isPySpace c = false) :
    invalidKey (String.mk (c :: l)) = false := by
  rw [invalidKey]
  have h2 := pyStrip_cons_ne_nil c l hc
  rcases hs : (pyStrip (String.mk (c :: l))).data with _ | ⟨d, ds⟩
  · exact absurd hs h2
  · rfl

/-- A generated cache key (an MD5 hex digest) always passes both
backends' key validation. -/
theorem invalidKey_md5hexOf (s : String) : invalidKey (md5hexOf s) = false := by
  have hlt : md5Nat (strBytes s) % 256 / 16 < 16 := by
    have : md5Nat (strBytes s) % 256 < 256 := Nat.mod_lt _ (by omega)
    omega
  have hns := hexDigitChar_not_space _ hlt
  show invalidKey (hex16LE (md5Nat (strBytes s))) = false
  rw [hex16LE, byteHex]
  simp only [List.cons_append, List.nil_append]
  exact invalidKey_mk_cons _ _ hns

end MCE

namespace MCE

/-! ### Serialization round-trip lemmas -/

theorem intPairsOf_map (m : List (String × Int)) :
    intPairsOf (m.map fun kv => (kv.1, JVal.intNum kv.2)) = some m := by
  induction m with
  | nil => rfl
  | cons kv rest ih => simp [intPairsOf, ih]

theorem ratValsOf_map (v : List Rat) : ratValsOf (v.map JVal.floatNum) = some v := by
  induction v with
  | nil => rfl
  | cons q rest ih => simp [ratValsOf, ih]

theorem ratRowsOf_map (e : List (List Rat)) :
    ratRowsOf (e.map fun v => JVal.arr (v.map JVal.floatNum)) = some e := by
  induction e with
  | nil => rfl
  | cons v rest ih => simp [ratRowsOf, asRatList, ratValsOf_map, ih]

/-- Reconstructing the serialized fields of an `LLMResponse` recovers it. -/
theorem parseLLMResponse_roundTrip (r : LLMResponse) :
    parseLLMResponse (llmResponseFields r) = some r := by
  rcases r with ⟨c, m, u, f⟩
  rcases u with _ | u <;> rcases f with _ | f <;>
    simp [parseLLMResponse, llmResponseFields, parseStrField, parseOptField, getField,
      asStr, usageJ, optJ, asIntPairs, intPairsOf_map]

/-- Reconstructing the serialized fields of an `EmbeddingResponse`
recovers it. -/
theorem parseEmbeddingResponse_roundTrip (r : EmbeddingResponse) :
    parseEmbeddingResponse (embeddingResponseFields r) = some r := by
  rcases r with ⟨e, m, u⟩
  rcases u with _ | u <;>
    simp [parseEmbeddingResponse, embeddingResponseFields, parseStrField, parseOptField,
      getField, asStr, usageJ, optJ, asIntPairs, asRatListList, intPairsOf_map,
      ratRowsOf_map]

end MCE

namespace MCE

theorem effTtl_pos (d : Nat) (tl : Option Nat) (hd : 0 < d) : 0 < effTtl d tl := by
  rcases tl with _ | t
  · exact hd
  · by_cases ht : t = 0 <;> simp [effTtl, ht] <;> omega

/-- Field lookups on a freshly serialized cache file body. -/
theorem getField_cacheFile_expires (v : JVal) (e : Nat) :
    getField [("response", v), ("expires_at", JVal.str (natRepr e))] "expires_at"
      = some (.str (natRepr e)) := by
  simp [getField]

theorem getField_cacheFile_response (v : JVal) (w : JVal) :
    getField [("response", v), ("expires_at", w)] "response" = some v := by
  simp [getField]

theorem getField_llm_tag (r : LLMResponse) :
    getField (llmResponseFields r ++ [("response_type", JVal.str "LLMResponse")])
      "response_type" = some (.str "LLMResponse") := by
  simp [llmResponseFields, getField]

theorem getField_emb_tag (r : EmbeddingResponse) :
    getField (embeddingResponseFields r ++ [("response_type", JVal.str "EmbeddingResponse")])
      "response_type" = some (.str "EmbeddingResponse") := by
  simp [embeddingResponseFields, getField]

theorem filter_llm_tag (r : LLMResponse) :
    (llmResponseFields r).filter (fun kv => kv.1 != "response_type")
      = llmResponseFields r := by
  simp [llmResponseFields]

theorem filter_emb_tag (r : EmbeddingResponse) :
    (embeddingResponseFields r).filter (fun kv => kv.1 != "response_type")
      = embeddingResponseFields r := by
  simp [embeddingResponseFields]

/-- Reading back a freshly written cache file reconstructs the stored
response (the heart of the file backend's round trip). -/
theorem fileGet_after_set (fc : FileLLMCache) (key : String) (r : CachedResponse)
    (tl : Option Nat) (now : Nat) (hkey : invalidKey key = false)
    (hft : 0 < fc.default_ttl)
    (hfit : ¬ utf8Len (dumpsIndent2 (cacheFileJVal r (now + effTtl fc.default_ttl tl)))
        > fc.max_file_size) :
    fileSet fc key (.resp r) tl now
      = (none, fileStore fc key (cacheFileJVal r (now + effTtl fc.default_ttl tl))) ∧
    (fileGet (fileStore fc key (cacheFileJVal r (now + effTtl fc.default_ttl tl)))
        key now).1 = .hit r := by
  have hpos := effTtl_pos fc.default_ttl tl hft
  have hexp : (now > now + effTtl fc.default_ttl tl) = False := by
    simp only [eq_iff_iff, iff_false]
    omega
  constructor
  · simp only [fileSet, hkey, Bool.false_eq_true, if_false, hfit]
  · rcases r with r | r
    · simp [fileGet, fileStore, getField_dictSet_self, cacheFileJVal, respDump,
        getField_cacheFile_expires, getField_cacheFile_response, parseDec_natRepr,
        hexp, getField_llm_tag, filter_llm_tag, parseLLMResponse_roundTrip]
    · simp [fileGet, fileStore, getField_dictSet_self, cacheFileJVal, respDump,
        getField_cacheFile_expires, getField_cacheFile_response, parseDec_natRepr,
        hexp, getField_emb_tag, filter_emb_tag, parseEmbeddingResponse_roundTrip]

end MCE

namespace MCE

/-- C1: for every valid response R and every key that is non-empty after
trimming whitespace, `set(K, R)` immediately followed by `get(K)` on the
same cache instance returns a response deep-equal to R, for both the
in-memory backend and the file backend (the latter serializing to tagged
JSON and reconstructing a same-typed, field-equal response).  The file
conjunct carries the size-cap hypothesis under which its `set` succeeds;
`tl` ranges over every `ttl` argument, the `set(K, R)` default included. -/
theorem c1_set_get_round_trip
    (key : String) (hkey : invalidKey key = false)
    (r : CachedResponse) (tl : Option Nat) (now : Nat)
    (mc : InMemoryLLMCache) (hmt : 0 < mc.default_ttl)
    (fc : FileLLMCache) (hft : 0 < fc.default_ttl)
    (hfit : ¬ utf8Len (dumpsIndent2 (cacheFileJVal r (now + effTtl fc.default_ttl tl)))
        > fc.max_file_size) :
    (memSet mc key (.resp r) tl now).1 = none ∧
    (memGet (memSet mc key (.resp r) tl now).2 key now).1 = some r ∧
    (fileSet fc key (.resp r) tl now).1 = none ∧
    (fileGet (fileSet fc key (.resp r) tl now).2 key now).1 = .hit r := by
  have hrt := fileGet_after_set fc key r tl now hkey hft hfit
  have hmem : memSet mc key (.resp r) tl now
      = (none, memStore mc key ⟨r, now + effTtl mc.default_ttl tl⟩) := by
    simp [memSet, hkey]
  have hpos := effTtl_pos mc.default_ttl tl hmt
  refine ⟨by rw [hmem], ?_, by rw [hrt.1], ?_⟩
  · rw [hmem]
    simp only [memGet, memStore, getField_dictSet_self]
    rw [if_neg (by omega)]
  · rw [hrt.1]
    exact hrt.2

/-- Witness for C1 at a concrete key, response, clock and pair of
freshly constructed backends. -/
theorem c1_set_get_round_trip_witness :
    (memSet ⟨3600, []⟩ "key1"
        (.resp (.chat ⟨"Test response", "gpt-4", some [("prompt_tokens", 10)], some "stop"⟩))
        none 0).1 = none ∧
    (memGet (memSet ⟨3600, []⟩ "key1"
        (.resp (.chat ⟨"Test response", "gpt-4", some [("prompt_tokens", 10)], some "stop"⟩))
        none 0).2 "key1" 0).1
      = some (.chat ⟨"Test response", "gpt-4", some [("prompt_tokens", 10)], some "stop"⟩) ∧
    (fileSet ⟨3600, 10485760, []⟩ "key1"
        (.resp (.chat ⟨"Test response", "gpt-4", some [("prompt_tokens", 10)], some "stop"⟩))
        none 0).1 = none ∧
    (fileGet (fileSet ⟨3600, 10485760, []⟩ "key1"
        (.resp (.chat ⟨"Test response", "gpt-4", some [("prompt_tokens", 10)], some "stop"⟩))
        none 0).2 "key1" 0).1
      = .hit (.chat ⟨"Test response", "gpt-4", some [("prompt_tokens", 10)], some "stop"⟩) :=
  c1_set_get_round_trip "key1" (by decide)
    (.chat ⟨"Test response", "gpt-4", some [("prompt_tokens", 10)], some "stop"⟩)
    none 0 ⟨3600, []⟩ (by decide) ⟨3600, 10485760, []⟩ (by decide) (by decide)

end MCE

namespace MCE

/-- Reading a well-formed stored entry: a hit while `now ≤ expires_at`,
a deleting miss once `expires_at < now` (both backends compare with a
strict `datetime.now() > expires_at`). -/
theorem fileGet_stored (fc : FileLLMCache) (key : String) (r : CachedResponse)
    (exp now : Nat)
    (hf : getField fc.files (cacheFileName key) = some (.json (cacheFileJVal r exp))) :
    (now ≤ exp → (fileGet fc key now).1 = .hit r) ∧
    (exp < now → fileGet fc key now = (.absent, delFile fc (cacheFileName key))) := by
  constructor
  · intro hle
    have hexp : (now > exp) = False := by
      simp only [eq_iff_iff, iff_false]
      omega
    rcases r with r | r <;>
      simp [fileGet, hf, cacheFileJVal, respDump, getField_cacheFile_expires,
        getField_cacheFile_response, parseDec_natRepr, hexp, getField_llm_tag,
        filter_llm_tag, parseLLMResponse_roundTrip, getField_emb_tag, filter_emb_tag,
        parseEmbeddingResponse_roundTrip]
  · intro hlt
    have hexp : (now > exp) = True := by
      simp only [eq_iff_iff, iff_true]
      omega
    simp [fileGet, hf, cacheFileJVal, getField_cacheFile_expires, parseDec_natRepr, hexp]

/-- C2 counterexample: at the boundary instant `now = expires_at` the
in-memory backend returns the entry and keeps it (the comparison is the
strict `datetime.now() > expires_at`), while the claim requires entries
with `expires_at ≤ now` to be treated as absent and removed. -/
theorem c2_expiry_boundary_counterexample :
    (memGet ⟨3600, [("k", ⟨.chat ⟨"r", "m", none, none⟩, 100⟩)]⟩ "k" 100).1
      = some (.chat ⟨"r", "m", none, none⟩) ∧
    (memGet ⟨3600, [("k", ⟨.chat ⟨"r", "m", none, none⟩, 100⟩)]⟩ "k" 100).2
      = ⟨3600, [("k", ⟨.chat ⟨"r", "m", none, none⟩, 100⟩)]⟩ ∧
    (100 : Nat) ≤ 100 := by
  decide

/-- C2 (amended): `get` never returns an entry whose `expires_at` is
STRICTLY before the current time — such entries are treated as absent
and removed (map entry deleted / file unlinked) — while an entry whose
`expires_at` equals the current time is still returned.  Both backends. -/
theorem c2_expired_entries_absent_and_removed
    (mc : InMemoryLLMCache) (key : String) (now : Nat) (e : MemEntry)
    (hm : getField mc.cache key = some e)
    (fc : FileLLMCache) (r : CachedResponse) (exp : Nat)
    (hf : getField fc.files (cacheFileName key) = some (.json (cacheFileJVal r exp))) :
    (e.expires_at < now →
      memGet mc key now = (none, { mc with cache := dictDel mc.cache key })) ∧
    (now ≤ e.expires_at → memGet mc key now = (some e.response, mc)) ∧
    (exp < now → fileGet fc key now = (.absent, delFile fc (cacheFileName key))) ∧
    (now ≤ exp → (fileGet fc key now).1 = .hit r) := by
  refine ⟨?_, ?_, (fileGet_stored fc key r exp now hf).2,
    (fileGet_stored fc key r exp now hf).1⟩
  · intro hlt
    simp only [memGet, hm]
    rw [if_pos (by omega)]
  · intro hle
    simp only [memGet, hm]
    rw [if_neg (by omega)]

/-- Witness for the amended C2 at concrete states on both sides of the
expiry comparison. -/
theorem c2_expired_entries_absent_and_removed_witness :
    (memGet ⟨3600, [("k", ⟨.chat ⟨"r", "m", none, none⟩, 5⟩)]⟩ "k" 6
      = (none, ⟨3600, []⟩)) ∧
    (fileGet ⟨3600, 10485760,
        [("k.json", .json (cacheFileJVal (.chat ⟨"r", "m", none, none⟩) 5))]⟩ "k" 6
      = (.absent, ⟨3600, 10485760, []⟩)) := by
  have h := c2_expired_entries_absent_and_removed
    ⟨3600, [("k", ⟨.chat ⟨"r", "m", none, none⟩, 5⟩)]⟩ "k" 6
    ⟨.chat ⟨"r", "m", none, none⟩, 5⟩ (by decide)
    ⟨3600, 10485760, [("k.json", .json (cacheFileJVal (.chat ⟨"r", "m", none, none⟩) 5))]⟩
    (.chat ⟨"r", "m", none, none⟩) 5 rfl
  exact ⟨h.1 (by decide), h.2.2.1 (by decide)⟩

end MCE

namespace MCE

/-- C3: for the file backend, when the file at K's computed path holds
bytes that fail to parse as JSON, or a JSON object lacking an expected
field (`expires_at`, `response`), or one carrying an unrecognized
response-kind tag, `get(K)` returns absent, the file is deleted, and no
exception escapes (the outcome is `absent`, not `raised`). -/
theorem c3_corruption_is_silent_miss (fc : FileLLMCache) (key : String) (now : Nat) :
    (getField fc.files (cacheFileName key) = some .garbage →
      fileGet fc key now = (.absent, delFile fc (cacheFileName key))) ∧
    (∀ fs, getField fc.files (cacheFileName key) = some (.json (.obj fs)) →
      getField fs "expires_at" = none →
      fileGet fc key now = (.absent, delFile fc (cacheFileName key))) ∧
    (∀ fs ts exp, getField fc.files (cacheFileName key) = some (.json (.obj fs)) →
      getField fs "expires_at" = some (.str ts) → parseDec ts = some exp →
      ¬ now > exp → getField fs "response" = none →
      fileGet fc key now = (.absent, delFile fc (cacheFileName key))) ∧
    (∀ fs ts exp rfs, getField fc.files (cacheFileName key) = some (.json (.obj fs)) →
      getField fs "expires_at" = some (.str ts) → parseDec ts = some exp →
      ¬ now > exp → getField fs "response" = some (.obj rfs) →
      (∀ t, getField rfs "response_type" = some t →
        t ≠ .str "LLMResponse" ∧ t ≠ .str "EmbeddingResponse") →
      fileGet fc key now = (.absent, delFile fc (cacheFileName key))) := by
  refine ⟨?_, ?_, ?_, ?_⟩
  · intro hfile
    simp [fileGet, hfile]
  · intro fs hfile hmiss
    simp [fileGet, hfile, hmiss]
  · intro fs ts exp hfile hts hparse hexp hmiss
    have hexp2 : (now > exp) = False := by
      simp only [eq_iff_iff, iff_false]
      omega
    simp [fileGet, hfile, hts, hparse, hexp2, hmiss]
  · intro fs ts exp rfs hfile hts hparse hexp hresp htag
    have hexp2 : (now > exp) = False := by
      simp only [eq_iff_iff, iff_false]
      omega
    simp only [fileGet, hfile, hts, hparse, hexp2, if_false, hresp]
    split
    · rename_i heq
      exact absurd rfl (htag _ heq).1
    · rename_i heq
      exact absurd rfl (htag _ heq).2
    · rfl

/-- Witness for C3 on a concrete unparseable file, an object missing its
fields, and an unrecognized tag. -/
theorem c3_corruption_is_silent_miss_witness :
    (fileGet ⟨3600, 10485760, [("k.json", .garbage)]⟩ "k" 0
      = (.absent, ⟨3600, 10485760, []⟩)) ∧
    (fileGet ⟨3600, 10485760, [("k.json", .json (.obj []))]⟩ "k" 0
      = (.absent, ⟨3600, 10485760, []⟩)) ∧
    (fileGet ⟨3600, 10485760, [("k.json", .json (.obj [("expires_at", .str "9"),
        ("response", .obj [("response_type", .str "Bogus")])]))]⟩ "k" 0
      = (.absent, ⟨3600, 10485760, []⟩)) := by
  refine ⟨(c3_corruption_is_silent_miss ⟨3600, 10485760, [("k.json", .garbage)]⟩
      "k" 0).1 rfl,
    (c3_corruption_is_silent_miss ⟨3600, 10485760, [("k.json", .json (.obj []))]⟩
      "k" 0).2.1 [] rfl rfl, ?_⟩
  exact (c3_corruption_is_silent_miss ⟨3600, 10485760, [("k.json", .json (.obj
      [("expires_at", .str "9"), ("response", .obj [("response_type", .str "Bogus")])]))]⟩
      "k" 0).2.2.2 [("expires_at", .str "9"), ("response", .obj [("response_type", .str "Bogus")])]
      "9" 9 [("response_type", .str "Bogus")] rfl rfl (by decide) (by decide) rfl
      (by intro t ht
          have h : t = JVal.str "Bogus" := by
            injection ht with h
            exact h.symm
          subst h
          constructor
          · intro hc
            injection hc with hs
            exact absurd hs (by decide)
          · intro hc
            injection hc with hs
            exact absurd hs (by decide))

end MCE

namespace MCE

theorem filter_fst_length {β γ : Type} (p : String → Bool) :
    ∀ (l : List (String × β)) (l2 : List (String × γ)),
      l.map Prod.fst = l2.map Prod.fst →
      (l.filter fun kv => p kv.1).length = (l2.filter fun kv => p kv.1).length := by
  intro l
  induction l with
  | nil =>
      intro l2 h
      cases l2 with
      | nil => rfl
      | cons q qs => simp at h
  | cons q qs ih =>
      intro l2 h
      cases l2 with
      | nil => simp at h
      | cons q2 qs2 =>
          simp only [List.map_cons, List.cons.injEq] at h
          simp only [List.filter_cons, h.1]
          rcases hp : p q2.1 with _ | _
          · simp [ih qs2 h.2]
          · simp [ih qs2 h.2]

/-- C7 counterexample: `size()` does count expired entries.  The file
backend counts a stored file whose `expires_at` (epoch second 0) is long
past (the current instant being 100), because its `size` reads no clock
and parses no file; and the in-memory backend's `size` at instant 100
counts an entry expiring exactly at 100, which is not strictly in the
future. -/
theorem c7_size_counts_expired_counterexample :
    fileSize ⟨3600, 10485760,
        [("k.json", .json (cacheFileJVal (.chat ⟨"r", "m", none, none⟩) 0))]⟩ = 1 ∧
    (0 : Nat) < 100 ∧
    (memSize ⟨3600, [("k", ⟨.chat ⟨"r", "m", none, none⟩, 100⟩)]⟩ 100).1 = 1 := by
  refine ⟨?_, by decide, ?_⟩ <;> decide

/-- C7 (amended): the in-memory `size()` purges exactly the
strictly-expired entries and counts the remainder — every counted entry
has `expires_at ≥ now` (equality included, so not necessarily strictly
in the future) — while the file backend's `size()` depends only on the
stored file names, so expired-but-unread entries are counted until some
other operation removes them. -/
theorem c7_size_semantics (mc : InMemoryLLMCache) (now : Nat)
    (fc fc2 : FileLLMCache) (hnames : fc.files.map Prod.fst = fc2.files.map Prod.fst) :
    ((memSize mc now).1 = (memSize mc now).2.cache.length) ∧
    (∀ k e, (k, e) ∈ (memSize mc now).2.cache → now ≤ e.expires_at) ∧
    (∀ k e, (k, e) ∈ mc.cache → now ≤ e.expires_at → (k, e) ∈ (memSize mc now).2.cache) ∧
    fileSize fc = fileSize fc2 := by
  refine ⟨rfl, ?_, ?_, ?_⟩
  · intro k e hmem
    simp only [memSize, memCleanup, List.mem_filter] at hmem
    have := hmem.2
    simp only [decide_eq_true_eq] at this
    omega
  · intro k e hmem hle
    simp only [memSize, memCleanup, List.mem_filter]
    refine ⟨hmem, ?_⟩
    simp only [decide_eq_true_eq]
    omega
  · exact filter_fst_length matchesJsonGlob fc.files fc2.files hnames

/-- Witness for the amended C7: a cache with one live and one
strictly-expired entry, and two file stores sharing names with different
expiry payloads. -/
theorem c7_size_semantics_witness :
    ((memSize ⟨3600, [("a", ⟨.chat ⟨"r", "m", none, none⟩, 50⟩),
        ("b", ⟨.chat ⟨"r", "m", none, none⟩, 200⟩)]⟩ 100).1
      = (memSize ⟨3600, [("a", ⟨.chat ⟨"r", "m", none, none⟩, 50⟩),
        ("b", ⟨.chat ⟨"r", "m", none, none⟩, 200⟩)]⟩ 100).2.cache.length) ∧
    fileSize ⟨3600, 10485760,
        [("k.json", .json (cacheFileJVal (.chat ⟨"r", "m", none, none⟩) 0))]⟩
      = fileSize ⟨3600, 10485760,
        [("k.json", .json (cacheFileJVal (.chat ⟨"r", "m", none, none⟩) 999))]⟩ := by
  have h := c7_size_semantics
    ⟨3600, [("a", ⟨.chat ⟨"r", "m", none, none⟩, 50⟩),
      ("b", ⟨.chat ⟨"r", "m", none, none⟩, 200⟩)]⟩ 100
    ⟨3600, 10485760, [("k.json", .json (cacheFileJVal (.chat ⟨"r", "m", none, none⟩) 0))]⟩
    ⟨3600, 10485760, [("k.json", .json (cacheFileJVal (.chat ⟨"r", "m", none, none⟩) 999))]⟩
    (by decide)
  exact ⟨h.1, h.2.2.2⟩

/-- C8: when the serialized JSON byte length of the entry exceeds
`max_file_size`, the file backend's `set` raises the response-too-large
error and performs no write — the store is returned unchanged, the size
check preceding any filesystem write. -/
theorem c8_size_cap_no_write (fc : FileLLMCache) (key : String)
    (hkey : invalidKey key = false) (r : CachedResponse) (tl : Option Nat) (now : Nat)
    (hbig : utf8Len (dumpsIndent2 (cacheFileJVal r (now + effTtl fc.default_ttl tl)))
        > fc.max_file_size) :
    fileSet fc key (.resp r) tl now = (some .responseTooLarge, fc) := by
  simp [fileSet, hkey, hbig]

/-- Witness for C8: `max_file_size = 100` and a response whose
serialized form exceeds 100 bytes; no file is created. -/
theorem c8_size_cap_no_write_witness :
    fileSet ⟨3600, 100, []⟩ "key1"
      (.resp (.chat ⟨String.mk (List.replicate 200 'x'), "gpt-4", none, none⟩)) none 0
      = (some .responseTooLarge, ⟨3600, 100, []⟩) :=
  c8_size_cap_no_write ⟨3600, 100, []⟩ "key1" (by decide)
    (.chat ⟨String.mk (List.replicate 200 'x'), "gpt-4", none, none⟩) none 0 (by decide)

end MCE

namespace MCE

/-- C9: for both backends, `set` raises and leaves the cache state
unchanged when the key is empty or whitespace-only (the empty-key
error), when the response is None (the none-response error), and when
the response is an unsupported object (the unsupported-type error); the
validation checks precede any mutation of the store. -/
theorem c9_set_validation_no_mutation
    (mc : InMemoryLLMCache) (fc : FileLLMCache) (key goodKey : String)
    (hbad : invalidKey key = true) (hgood : invalidKey goodKey = false)
    (tl : Option Nat) (now : Nat) (arg : SetArg) :
    memSet mc key arg tl now = (some .emptyKey, mc) ∧
    fileSet fc key arg tl now = (some .emptyKey, fc) ∧
    memSet mc goodKey .pynone tl now = (some .noneResponse, mc) ∧
    fileSet fc goodKey .pynone tl now = (some .noneResponse, fc) ∧
    memSet mc goodKey .unsupported tl now = (some .unsupportedType, mc) ∧
    fileSet fc goodKey .unsupported tl now = (some .unsupportedType, fc) := by
  refine ⟨?_, ?_, ?_, ?_, ?_, ?_⟩ <;>
    simp [memSet, fileSet, hbad, hgood]

/-- Witness for C9 with the spec's own inputs: the whitespace-only key
`"   "` and a valid key `"key1"`. -/
theorem c9_set_validation_no_mutation_witness :
    memSet ⟨3600, []⟩ "   " (.resp (.chat ⟨"r", "m", none, none⟩)) none 0
      = (some .emptyKey, ⟨3600, []⟩) ∧
    fileSet ⟨3600, 10485760, []⟩ "   " (.resp (.chat ⟨"r", "m", none, none⟩)) none 0
      = (some .emptyKey, ⟨3600, 10485760, []⟩) ∧
    memSet ⟨3600, []⟩ "key1" .pynone none 0 = (some .noneResponse, ⟨3600, []⟩) ∧
    fileSet ⟨3600, 10485760, []⟩ "key1" .pynone none 0
      = (some .noneResponse, ⟨3600, 10485760, []⟩) ∧
    memSet ⟨3600, []⟩ "key1" .unsupported none 0 = (some .unsupportedType, ⟨3600, []⟩) ∧
    fileSet ⟨3600, 10485760, []⟩ "key1" .unsupported none 0
      = (some .unsupportedType, ⟨3600, 10485760, []⟩) :=
  c9_set_validation_no_mutation ⟨3600, []⟩ ⟨3600, 10485760, []⟩ "   " "key1"
    (by decide) (by decide) none 0 (.resp (.chat ⟨"r", "m", none, none⟩))

/-- C10: for both backends, a falsy `ttl` argument (`ttl=0`, or absent)
is replaced by the backend's `default_ttl` — the new entry's
`expires_at` is exactly `now + default_ttl`, not an already-expired
timestamp — and an immediate `get(K)` returns the response. -/
theorem c10_falsy_ttl_uses_default
    (key : String) (hkey : invalidKey key = false) (r : CachedResponse) (now : Nat)
    (tl : Option Nat) (hfalsy : tl = none ∨ tl = some 0)
    (mc : InMemoryLLMCache) (hmt : 0 < mc.default_ttl)
    (fc : FileLLMCache) (hft : 0 < fc.default_ttl)
    (hfit : ¬ utf8Len (dumpsIndent2 (cacheFileJVal r (now + fc.default_ttl)))
        > fc.max_file_size) :
    memSet mc key (.resp r) tl now = (none, memStore mc key ⟨r, now + mc.default_ttl⟩) ∧
    (memGet (memSet mc key (.resp r) tl now).2 key now).1 = some r ∧
    fileSet fc key (.resp r) tl now
      = (none, fileStore fc key (cacheFileJVal r (now + fc.default_ttl))) ∧
    (fileGet (fileSet fc key (.resp r) tl now).2 key now).1 = .hit r := by
  have hem : effTtl mc.default_ttl tl = mc.default_ttl := by
    rcases hfalsy with h | h <;> subst h <;> simp [effTtl]
  have hef : effTtl fc.default_ttl tl = fc.default_ttl := by
    rcases hfalsy with h | h <;> subst h <;> simp [effTtl]
  have hfit2 : ¬ utf8Len (dumpsIndent2 (cacheFileJVal r (now + effTtl fc.default_ttl tl)))
      > fc.max_file_size := by rw [hef]; exact hfit
  have h1 := c1_set_get_round_trip key hkey r tl now mc hmt fc hft hfit2
  have hmem : memSet mc key (.resp r) tl now
      = (none, memStore mc key ⟨r, now + mc.default_ttl⟩) := by
    simp [memSet, hkey, hem]
  have hfile : fileSet fc key (.resp r) tl now
      = (none, fileStore fc key (cacheFileJVal r (now + fc.default_ttl))) := by
    simp only [fileSet, hkey, Bool.false_eq_true, if_false, hef]
    rw [if_neg hfit]
  exact ⟨hmem, h1.2.1, hfile, h1.2.2.2⟩

/-- Witness for C10 at `ttl = some 0` on freshly constructed backends. -/
theorem c10_falsy_ttl_uses_default_witness :
    memSet ⟨3600, []⟩ "key1" (.resp (.chat ⟨"r", "m", none, none⟩)) (some 0) 5
      = (none, memStore ⟨3600, []⟩ "key1" ⟨.chat ⟨"r", "m", none, none⟩, 5 + 3600⟩) ∧
    (memGet (memSet ⟨3600, []⟩ "key1" (.resp (.chat ⟨"r", "m", none, none⟩))
        (some 0) 5).2 "key1" 5).1 = some (.chat ⟨"r", "m", none, none⟩) ∧
    fileSet ⟨3600, 10485760, []⟩ "key1" (.resp (.chat ⟨"r", "m", none, none⟩)) (some 0) 5
      = (none, fileStore ⟨3600, 10485760, []⟩ "key1"
          (cacheFileJVal (.chat ⟨"r", "m", none, none⟩) (5 + 3600))) ∧
    (fileGet (fileSet ⟨3600, 10485760, []⟩ "key1"
        (.resp (.chat ⟨"r", "m", none, none⟩)) (some 0) 5).2 "key1" 5).1
      = .hit (.chat ⟨"r", "m", none, none⟩) :=
  c10_falsy_ttl_uses_default "key1" (by decide) (.chat ⟨"r", "m", none, none⟩) 5
    (some 0) (Or.inr rfl) ⟨3600, []⟩ (by decide) ⟨3600, 10485760, []⟩ (by decide)
    (by decide)

end MCE

namespace MCE

/-! ### Digest bounds and fingerprint structure -/

theorem md5Block_lt (st : Nat × Nat × Nat × Nat) (M : List Nat) :
    (md5Block st M).1 < 4294967296 ∧ (md5Block st M).2.1 < 4294967296 ∧
    (md5Block st M).2.2.1 < 4294967296 ∧ (md5Block st M).2.2.2 < 4294967296 := by
  unfold md5Block
  refine ⟨?_, ?_, ?_, ?_⟩ <;> exact Nat.mod_lt _ (by omega)

theorem foldl_md5Block_lt (bs : List (List Nat)) :
    ∀ st : Nat × Nat × Nat × Nat,
      st.1 < 4294967296 → st.2.1 < 4294967296 → st.2.2.1 < 4294967296 →
      st.2.2.2 < 4294967296 →
      (bs.foldl md5Block st).1 < 4294967296 ∧
      (bs.foldl md5Block st).2.1 < 4294967296 ∧
      (bs.foldl md5Block st).2.2.1 < 4294967296 ∧
      (bs.foldl md5Block st).2.2.2 < 4294967296 := by
  induction bs with
  | nil => intro st h1 h2 h3 h4; exact ⟨h1, h2, h3, h4⟩
  | cons b rest ih =>
      intro st _ _ _ _
      have hb := md5Block_lt st b
      exact ih (md5Block st b) hb.1 hb.2.1 hb.2.2.1 hb.2.2.2

/-- The 128-bit digest bound. -/
theorem md5Nat_lt (bytes : List Nat) :
    md5Nat bytes < 340282366920938463463374607431768211456 := by
  have h := foldl_md5Block_lt
    (chunk16 (leWords (md5Pad bytes)).length (leWords (md5Pad bytes)))
    (1732584193, 4023233417, 2562383102, 271733878)
    (by decide) (by decide) (by decide) (by decide)
  unfold md5Nat md5Words
  omega

/-- `parseDec` reads only the character data. -/
theorem parseDec_congr (s t : String) (h : s.data = t.data) : parseDec s = parseDec t := by
  unfold parseDec
  rw [h]

theorem natRepr_data_inj {a b : Nat} (h : (natRepr a).data = (natRepr b).data) : a = b := by
  have := parseDec_congr _ _ h
  rw [parseDec_natRepr, parseDec_natRepr] at this
  exact Option.some_inj.mp this

theorem intRepr_natCast (n : Nat) : intRepr (n : Int) = natRepr n := by
  rw [intRepr, if_neg (by omega)]
  simp

set_option maxHeartbeats 2000000 in
/-- The serialized fingerprint splits into the sorted `config`/`data`
prefix, the rendered hour bucket, and the closing brace. -/
theorem cacheKeyString_split (d : KeyData) (c : ConfigData) (h : Nat) :
    cacheKeyString d c h
      = ("\x7b" ++ ((escapeString "config" ++ ": " ++ dumpsSortedF 31 (configJ c)) ++ ", "
          ++ ((escapeString "data" ++ ": " ++ dumpsSortedF 31 (keyDataJ d)) ++ ", "
          ++ (escapeString "timestamp" ++ ": " ++ natRepr h))) ++ "\x7d") := by
  rw [← intRepr_natCast h]
  with_unfolding_all rfl

/-- Fingerprints of the same request data and configuration at different
hour buckets differ. -/
theorem cacheKeyString_hour_inj (d : KeyData) (c : ConfigData) (h1 h2 : Nat)
    (hne : h1 ≠ h2) : cacheKeyString d c h1 ≠ cacheKeyString d c h2 := by
  intro heq
  rw [cacheKeyString_split d c h1, cacheKeyString_split d c h2] at heq
  have hdq := congrArg String.data heq
  simp only [String.data_append, List.append_assoc] at hdq
  replace hdq := List.append_cancel_left hdq
  replace hdq := List.append_cancel_left hdq
  replace hdq := List.append_cancel_left hdq
  replace hdq := List.append_cancel_left hdq
  replace hdq := List.append_cancel_left hdq
  replace hdq := List.append_cancel_left hdq
  replace hdq := List.append_cancel_left hdq
  replace hdq := List.append_cancel_left hdq
  replace hdq := List.append_cancel_left hdq
  replace hdq := List.append_cancel_left hdq
  replace hdq := List.append_cancel_left hdq
  exact hne (natRepr_data_inj (List.append_inj_left' hdq rfl))

set_option maxHeartbeats 2000000 in
/-- C5 counterexample: the flat reading "the same request data and
configuration evaluated in different clock hours yield different keys"
is false for the code as written: the key is a 128-bit MD5 digest, so
over the infinitely many hour buckets two distinct hours must collide
(infinite pigeonhole); for such a pair the derived keys are equal. -/
theorem c5_distinct_hours_distinct_keys_counterexample :
    ¬ (∀ (d : KeyData) (c : ConfigData) (h1 h2 : Nat), h1 ≠ h2 →
        generateCacheKey d c h1 ≠ generateCacheKey d c h2) := by
  intro hall
  obtain ⟨x, y, hxy, heq⟩ := Finite.exists_ne_map_eq_of_infinite
    (fun h : Nat =>
      (⟨md5Nat (strBytes (cacheKeyString (.texts []) (.embedding ⟨"m", none, .float⟩) h)),
        md5Nat_lt _⟩ : Fin 340282366920938463463374607431768211456))
  apply hall (.texts []) (.embedding ⟨"m", none, .float⟩) x y hxy
  show md5hexOf _ = md5hexOf _
  unfold md5hexOf
  exact congrArg hex16LE (congrArg Fin.val heq)

/-- C5 (amended): key derivation is deterministic — structurally equal
request data, configuration and hour bucket yield the same key — and,
because the derivation folds in the wall-clock-hour bucket, the same
request data and configuration in different clock hours yield different
serialized fingerprints (hence different keys whenever the 128-bit
digests of those fingerprints differ, which the pigeonhole
counterexample shows cannot hold for every pair of hours). -/
theorem c5_key_determinism_and_hour_bucket
    (d1 d2 : KeyData) (c1 c2 : ConfigData) (h1 h2 : Nat) :
    (d1 = d2 → c1 = c2 → h1 = h2 →
      generateCacheKey d1 c1 h1 = generateCacheKey d2 c2 h2) ∧
    (h1 ≠ h2 → cacheKeyString d1 c1 h1 ≠ cacheKeyString d1 c1 h2) := by
  constructor
  · intro hd hc hh
    rw [hd, hc, hh]
  · exact cacheKeyString_hour_inj d1 c1 h1 h2

/-- Witness for the amended C5 at concrete request data, configuration
and hours. -/
theorem c5_key_determinism_and_hour_bucket_witness :
    (generateCacheKey (.texts ["a"]) (.embedding ⟨"m", none, .float⟩) 7
      = generateCacheKey (.texts ["a"]) (.embedding ⟨"m", none, .float⟩) 7) ∧
    cacheKeyString (.texts ["a"]) (.embedding ⟨"m", none, .float⟩) 0
      ≠ cacheKeyString (.texts ["a"]) (.embedding ⟨"m", none, .float⟩) 1 := by
  have h := c5_key_determinism_and_hour_bucket (.texts ["a"]) (.texts ["a"])
    (.embedding ⟨"m", none, .float⟩) (.embedding ⟨"m", none, .float⟩) 0 1
  exact ⟨rfl, h.2 (by decide)⟩

end MCE

namespace MCE

/-! ### Client facade behaviour -/

theorem isEmpty_false_of_ne_nil {α : Type} {l : List α} (h : l ≠ []) :
    l.isEmpty = false := by
  cases l with
  | nil => exact absurd rfl h
  | cons a as => rfl

/-- A cache hit returns the cached value without invoking the provider. -/
theorem getChatCompletion_hit (ad : CountingAdapter) (st : ClientState)
    (msgs : List ChatMessage) (cfg : ModelConfig) (tA tB : Nat)
    (r : CachedResponse) (cache' : InMemoryLLMCache)
    (hav : ad.available = true) (hmsgs : msgs ≠ [])
    (hget : memGet st.cache (generateCacheKey (.messages msgs) (.model cfg) (hourOf tA)) tA
      = (some r, cache')) :
    getChatCompletion ad st msgs cfg tA tB = (.ok r, ⟨st.calls, cache'⟩) := by
  simp only [getChatCompletion, isEmpty_false_of_ne_nil hmsgs, Bool.false_eq_true,
    if_false, hav, hget]
  rfl

/-- A cache miss invokes the provider once and stores its response under
the key re-derived at store time. -/
theorem getChatCompletion_miss (ad : CountingAdapter) (st : ClientState)
    (msgs : List ChatMessage) (cfg : ModelConfig) (tA tB : Nat)
    (cache' : InMemoryLLMCache)
    (hav : ad.available = true) (hmsgs : msgs ≠ [])
    (hget : memGet st.cache (generateCacheKey (.messages msgs) (.model cfg) (hourOf tA)) tA
      = (none, cache')) :
    getChatCompletion ad st msgs cfg tA tB
      = (.ok (.chat (ad.respond msgs cfg)),
         ⟨st.calls + 1,
          memStore cache' (generateCacheKey (.messages msgs) (.model cfg) (hourOf tB))
            ⟨.chat (ad.respond msgs cfg), tB + effTtl cache'.default_ttl none⟩⟩) := by
  have hk : invalidKey (generateCacheKey (.messages msgs) (.model cfg) (hourOf tB))
      = false := invalidKey_md5hexOf _
  simp only [getChatCompletion, isEmpty_false_of_ne_nil hmsgs, Bool.false_eq_true,
    if_false, hav, hget, memSet, hk]
  rfl

/-- The embedding analogues. -/
theorem generateEmbeddings_hit (ad : CountingAdapter) (st : ClientState)
    (texts : List String) (cfg : EmbeddingConfig) (tA tB : Nat)
    (r : CachedResponse) (cache' : InMemoryLLMCache)
    (hav : ad.available = true) (htexts : texts ≠ [])
    (hget : memGet st.cache (generateCacheKey (.texts texts) (.embedding cfg) (hourOf tA)) tA
      = (some r, cache')) :
    generateEmbeddings ad st texts cfg tA tB = (.ok r, ⟨st.calls, cache'⟩) := by
  simp only [generateEmbeddings, isEmpty_false_of_ne_nil htexts, Bool.false_eq_true,
    if_false, hav, hget]
  rfl

theorem generateEmbeddings_miss (ad : CountingAdapter) (st : ClientState)
    (texts : List String) (cfg : EmbeddingConfig) (tA tB : Nat)
    (cache' : InMemoryLLMCache)
    (hav : ad.available = true) (htexts : texts ≠ [])
    (hget : memGet st.cache (generateCacheKey (.texts texts) (.embedding cfg) (hourOf tA)) tA
      = (none, cache')) :
    generateEmbeddings ad st texts cfg tA tB
      = (.ok (.embed (ad.respondEmb texts cfg)),
         ⟨st.calls + 1,
          memStore cache' (generateCacheKey (.texts texts) (.embedding cfg) (hourOf tB))
            ⟨.embed (ad.respondEmb texts cfg), tB + effTtl cache'.default_ttl none⟩⟩) := by
  have hk : invalidKey (generateCacheKey (.texts texts) (.embedding cfg) (hourOf tB))
      = false := invalidKey_md5hexOf _
  simp only [generateEmbeddings, isEmpty_false_of_ne_nil htexts, Bool.false_eq_true,
    if_false, hav, hget, memSet, hk]
  rfl

end MCE

namespace MCE

/-- Two consecutive chat invocations through the facade against a fresh
client state over the cache `mem0`: both outcomes and the final state. -/
def runTwoChat (ad : CountingAdapter) (mem0 : InMemoryLLMCache)
    (m1 m2 : List ChatMessage) (cfg : ModelConfig) (t1a t1b t2a t2b : Nat) :
    Except ClientError CachedResponse × Except ClientError CachedResponse × ClientState :=
  ((getChatCompletion ad ⟨0, mem0⟩ m1 cfg t1a t1b).1,
   (getChatCompletion ad (getChatCompletion ad ⟨0, mem0⟩ m1 cfg t1a t1b).2 m2 cfg t2a t2b).1,
   (getChatCompletion ad (getChatCompletion ad ⟨0, mem0⟩ m1 cfg t1a t1b).2 m2 cfg t2a t2b).2)

/-- C4 (amended): with a cache attached and an available provider
adapter, two invocations with identical messages and config — the four
clock readings falling in one hour and the cache's TTL at least an hour
(the default construction) — make exactly one provider invocation and
return two equal responses, the second served from the cache; and two
invocations whose derived cache keys differ (which the pigeonhole
counterexample shows is not implied by the messages merely differing)
make two provider invocations. -/
theorem c4_client_cache_one_provider_call
    (ad : CountingAdapter) (cfg : ModelConfig) (msgs msgs2 : List ChatMessage)
    (mem0 : InMemoryLLMCache) (hemp : mem0.cache = []) (httl : 3600 ≤ mem0.default_ttl)
    (tA1 tB1 tA2 tB2 : Nat) (hav : ad.available = true)
    (h1 : msgs ≠ []) (h2 : msgs2 ≠ [])
    (hhour : hourOf tB1 = hourOf tA2) :
    ((runTwoChat ad mem0 msgs msgs cfg tA1 tB1 tA2 tB2).2.2.calls = 1 ∧
     (runTwoChat ad mem0 msgs msgs cfg tA1 tB1 tA2 tB2).1
       = .ok (.chat (ad.respond msgs cfg)) ∧
     (runTwoChat ad mem0 msgs msgs cfg tA1 tB1 tA2 tB2).2.1
       = (runTwoChat ad mem0 msgs msgs cfg tA1 tB1 tA2 tB2).1) ∧
    (generateCacheKey (.messages msgs2) (.model cfg) (hourOf tA2)
        ≠ generateCacheKey (.messages msgs) (.model cfg) (hourOf tB1) →
      (runTwoChat ad mem0 msgs msgs2 cfg tA1 tB1 tA2 tB2).2.2.calls = 2) := by
  have hget1 : memGet mem0 (generateCacheKey (.messages msgs) (.model cfg) (hourOf tA1)) tA1
      = (none, mem0) := by
    unfold memGet
    rw [hemp]
    rfl
  have hrun1 := getChatCompletion_miss ad ⟨0, mem0⟩ msgs cfg tA1 tB1 mem0 hav h1 hget1
  have hcache1 : (memStore mem0 (generateCacheKey (.messages msgs) (.model cfg) (hourOf tB1))
      ⟨.chat (ad.respond msgs cfg), tB1 + effTtl mem0.default_ttl none⟩).cache
      = [(generateCacheKey (.messages msgs) (.model cfg) (hourOf tB1),
          ⟨.chat (ad.respond msgs cfg), tB1 + mem0.default_ttl⟩)] := by
    simp [memStore, hemp, dictSet, effTtl]
  constructor
  · have hget2 : memGet (memStore mem0
        (generateCacheKey (.messages msgs) (.model cfg) (hourOf tB1))
        ⟨.chat (ad.respond msgs cfg), tB1 + effTtl mem0.default_ttl none⟩)
        (generateCacheKey (.messages msgs) (.model cfg) (hourOf tA2)) tA2
        = (some (.chat (ad.respond msgs cfg)),
           memStore mem0 (generateCacheKey (.messages msgs) (.model cfg) (hourOf tB1))
             ⟨.chat (ad.respond msgs cfg), tB1 + effTtl mem0.default_ttl none⟩) := by
      rw [← hhour]
      unfold memGet
      rw [hcache1]
      have : getField [(generateCacheKey (.messages msgs) (.model cfg) (hourOf tB1),
          (⟨.chat (ad.respond msgs cfg), tB1 + mem0.default_ttl⟩ : MemEntry))]
          (generateCacheKey (.messages msgs) (.model cfg) (hourOf tB1))
          = some ⟨.chat (ad.respond msgs cfg), tB1 + mem0.default_ttl⟩ := by
        simp [getField]
      rw [this]
      have hhour2 : tB1 / 3600 = tA2 / 3600 := hhour
      have hcond : (tA2 > tB1 + mem0.default_ttl) = False := by
        simp only [eq_iff_iff, iff_false]
        omega
      simp [hcond]
    have hrun2 := getChatCompletion_hit ad
      ⟨0 + 1, memStore mem0 (generateCacheKey (.messages msgs) (.model cfg) (hourOf tB1))
        ⟨.chat (ad.respond msgs cfg), tB1 + effTtl mem0.default_ttl none⟩⟩
      msgs cfg tA2 tB2 (.chat (ad.respond msgs cfg)) _ hav h1 hget2
    refine ⟨?_, ?_, ?_⟩ <;>
      simp only [runTwoChat, hrun1, hrun2]
  · intro hkne
    have hget2 : memGet (memStore mem0
        (generateCacheKey (.messages msgs) (.model cfg) (hourOf tB1))
        ⟨.chat (ad.respond msgs cfg), tB1 + effTtl mem0.default_ttl none⟩)
        (generateCacheKey (.messages msgs2) (.model cfg) (hourOf tA2)) tA2
        = (none,
           memStore mem0 (generateCacheKey (.messages msgs) (.model cfg) (hourOf tB1))
             ⟨.chat (ad.respond msgs cfg), tB1 + effTtl mem0.default_ttl none⟩) := by
      unfold memGet
      rw [hcache1]
      have : getField [(generateCacheKey (.messages msgs) (.model cfg) (hourOf tB1),
          (⟨.chat (ad.respond msgs cfg), tB1 + mem0.default_ttl⟩ : MemEntry))]
          (generateCacheKey (.messages msgs2) (.model cfg) (hourOf tA2)) = none := by
        simp [getField]
        intro hcontra
        exact absurd hcontra.symm hkne
      rw [this]
    have hrun2 := getChatCompletion_miss ad
      ⟨0 + 1, memStore mem0 (generateCacheKey (.messages msgs) (.model cfg) (hourOf tB1))
        ⟨.chat (ad.respond msgs cfg), tB1 + effTtl mem0.default_ttl none⟩⟩
      msgs2 cfg tA2 tB2 _ hav h2 hget2
    simp only [runTwoChat, hrun1, hrun2]

end MCE

namespace MCE

/-- Concrete fixtures for witnesses and counterexamples. -/
def demoMsg : ChatMessage := ⟨.user, "hello", none, none⟩

def demoMsg2 : ChatMessage := ⟨.user, "world", none, none⟩

def demoCfg : ModelConfig := ⟨"gpt-4", 1, 1024, none, none, none, none⟩

def demoResp : LLMResponse := ⟨"ok", "gpt-4", none, none⟩

def demoAdapter : CountingAdapter :=
  ⟨fun _ _ => demoResp, fun _ _ => ⟨[], "text-embedding", none⟩, true⟩

set_option maxHeartbeats 4000000 in
/-- Witness for the amended C4: concrete identical and differing calls
against a default-constructed cache. -/
theorem c4_client_cache_one_provider_call_witness :
    ((runTwoChat demoAdapter ⟨3600, []⟩ [demoMsg] [demoMsg] demoCfg 0 0 0 0).2.2.calls = 1 ∧
     (runTwoChat demoAdapter ⟨3600, []⟩ [demoMsg] [demoMsg] demoCfg 0 0 0 0).1
       = .ok (.chat (demoAdapter.respond [demoMsg] demoCfg)) ∧
     (runTwoChat demoAdapter ⟨3600, []⟩ [demoMsg] [demoMsg] demoCfg 0 0 0 0).2.1
       = (runTwoChat demoAdapter ⟨3600, []⟩ [demoMsg] [demoMsg] demoCfg 0 0 0 0).1) ∧
    (runTwoChat demoAdapter ⟨3600, []⟩ [demoMsg] [demoMsg2] demoCfg 0 0 0 0).2.2.calls = 2 := by
  have h := c4_client_cache_one_provider_call demoAdapter demoCfg [demoMsg] [demoMsg2]
    ⟨3600, []⟩ rfl (by decide) 0 0 0 0 rfl (List.cons_ne_nil _ _) (List.cons_ne_nil _ _) rfl
  exact ⟨h.1, h.2 (by decide)⟩

/-- Message lists of every positive length (for the pigeonhole argument
over distinct messages). -/
def cxMsgs (n : Nat) : List ChatMessage := List.replicate (n + 1) demoMsg

/-- The 128-bit digest of the chat fingerprint of `cxMsgs n` at hour
bucket 0. -/
def keyDigestAt (n : Nat) : Nat :=
  md5Nat (strBytes (cacheKeyString (.messages (cxMsgs n)) (.model demoCfg) (hourOf 0)))

/-- The digest as a point of the finite 128-bit codomain. -/
def keyDigestFin (n : Nat) : Fin 340282366920938463463374607431768211456 :=
  ⟨keyDigestAt n, md5Nat_lt _⟩

/-- C4 counterexample: as stated — "two invocations with different
messages result in two provider invocations", universally over the
messages — the claim is false for the code: keys are 128-bit MD5
digests, so among the infinitely many message lists two different ones
must collide (infinite pigeonhole), and for such a pair the second call
is served from the cache, leaving a single provider invocation. -/
theorem c4_different_messages_counterexample :
    ¬ (∀ (ad : CountingAdapter) (cfg : ModelConfig) (m1 m2 : List ChatMessage),
        ad.available = true → m1 ≠ [] → m2 ≠ [] → m1 ≠ m2 →
        (runTwoChat ad ⟨3600, []⟩ m1 m2 cfg 0 0 0 0).2.2.calls = 2) := by
  intro hall
  obtain ⟨x, y, hxy, heq⟩ := Finite.exists_ne_map_eq_of_infinite keyDigestFin
  have hb : ∀ n : Nat, generateCacheKey (.messages (cxMsgs n)) (.model demoCfg) (hourOf 0)
      = hex16LE (keyDigestAt n) := by
    intro n
    unfold generateCacheKey md5hexOf keyDigestAt
    rfl
  have hv : keyDigestAt x = keyDigestAt y := by
    have h2 := heq
    unfold keyDigestFin at h2
    rw [Fin.mk.injEq] at h2
    exact h2
  have hkeys : generateCacheKey (.messages (cxMsgs x)) (.model demoCfg) (hourOf 0)
      = generateCacheKey (.messages (cxMsgs y)) (.model demoCfg) (hourOf 0) := by
    rw [hb x, hb y, hv]
  have hmne : cxMsgs x ≠ cxMsgs y := by
    intro hcontra
    have hlen := congrArg List.length hcontra
    simp [cxMsgs] at hlen
    exact hxy hlen
  have hne1 : cxMsgs x ≠ [] := by simp [cxMsgs]
  have hne2 : cxMsgs y ≠ [] := by simp [cxMsgs]
  have hget1 : memGet ⟨3600, []⟩
      (generateCacheKey (.messages (cxMsgs x)) (.model demoCfg) (hourOf 0)) 0
      = (none, ⟨3600, []⟩) := rfl
  have hrun1 : getChatCompletion demoAdapter ⟨0, ⟨3600, []⟩⟩ (cxMsgs x) demoCfg 0 0
      = (.ok (.chat demoResp),
         ⟨1, memStore ⟨3600, []⟩
           (generateCacheKey (.messages (cxMsgs x)) (.model demoCfg) (hourOf 0))
           ⟨.chat demoResp, 3600⟩⟩) :=
    getChatCompletion_miss demoAdapter ⟨0, ⟨3600, []⟩⟩ (cxMsgs x) demoCfg 0 0
      ⟨3600, []⟩ rfl hne1 hget1
  have hg : getField (memStore ⟨3600, []⟩
        (generateCacheKey (.messages (cxMsgs x)) (.model demoCfg) (hourOf 0))
        ⟨.chat demoResp, 3600⟩).cache
      (generateCacheKey (.messages (cxMsgs y)) (.model demoCfg) (hourOf 0))
      = some ⟨.chat demoResp, 3600⟩ := by
    rw [← hkeys]
    exact getField_dictSet_self _ _ _
  have hget2 : memGet (memStore ⟨3600, []⟩
        (generateCacheKey (.messages (cxMsgs x)) (.model demoCfg) (hourOf 0))
        ⟨.chat demoResp, 3600⟩)
      (generateCacheKey (.messages (cxMsgs y)) (.model demoCfg) (hourOf 0)) 0
      = (some (.chat demoResp),
         memStore ⟨3600, []⟩
           (generateCacheKey (.messages (cxMsgs x)) (.model demoCfg) (hourOf 0))
           ⟨.chat demoResp, 3600⟩) := by
    unfold memGet
    rw [hg]
    rfl
  have hrun2 : getChatCompletion demoAdapter
      ⟨1, memStore ⟨3600, []⟩
        (generateCacheKey (.messages (cxMsgs x)) (.model demoCfg) (hourOf 0))
        ⟨.chat demoResp, 3600⟩⟩ (cxMsgs y) demoCfg 0 0
      = (.ok (.chat demoResp),
         ⟨1, memStore ⟨3600, []⟩
           (generateCacheKey (.messages (cxMsgs x)) (.model demoCfg) (hourOf 0))
           ⟨.chat demoResp, 3600⟩⟩) :=
    getChatCompletion_hit demoAdapter
      ⟨1, memStore ⟨3600, []⟩
        (generateCacheKey (.messages (cxMsgs x)) (.model demoCfg) (hourOf 0))
        ⟨.chat demoResp, 3600⟩⟩ (cxMsgs y) demoCfg 0 0
      (.chat demoResp) _ rfl hne2 hget2
  have hcalls := hall demoAdapter demoCfg (cxMsgs x) (cxMsgs y) rfl hne1 hne2 hmne
  have hone : (runTwoChat demoAdapter ⟨3600, []⟩ (cxMsgs x) (cxMsgs y)
      demoCfg 0 0 0 0).2.2.calls = 1 := by
    simp only [runTwoChat, hrun1, hrun2]
  exact absurd (hone.symm.trans hcalls) (by decide)

end MCE

namespace MCE

/-- C6 (amended): on a cache miss with a successful provider call, the
client stores the provider's result under the cache key re-derived at
store time; that key equals the one used for the preceding lookup
whenever both derivations fall in the same clock hour (the derivation
folds in an hour bucket, and the provider `await` separates the two
derivations — the counterexample shows they differ across an hour
boundary).  Both `getChatCompletion` and `generateEmbeddings`. -/
theorem c6_stores_under_lookup_key_within_hour
    (ad : CountingAdapter) (st : ClientState) (msgs : List ChatMessage)
    (cfg : ModelConfig) (texts : List String) (ecfg : EmbeddingConfig)
    (tA tB : Nat) (hav : ad.available = true) (hhour : hourOf tA = hourOf tB)
    (hmsgs : msgs ≠ []) (htexts : texts ≠ [])
    (cache1 cache2 : InMemoryLLMCache)
    (hmiss1 : memGet st.cache
      (generateCacheKey (.messages msgs) (.model cfg) (hourOf tA)) tA = (none, cache1))
    (hmiss2 : memGet st.cache
      (generateCacheKey (.texts texts) (.embedding ecfg) (hourOf tA)) tA = (none, cache2)) :
    (getChatCompletion ad st msgs cfg tA tB).1 = .ok (.chat (ad.respond msgs cfg)) ∧
    getField (getChatCompletion ad st msgs cfg tA tB).2.cache.cache
        (generateCacheKey (.messages msgs) (.model cfg) (hourOf tA))
      = some ⟨.chat (ad.respond msgs cfg), tB + effTtl cache1.default_ttl none⟩ ∧
    (generateEmbeddings ad st texts ecfg tA tB).1 = .ok (.embed (ad.respondEmb texts ecfg)) ∧
    getField (generateEmbeddings ad st texts ecfg tA tB).2.cache.cache
        (generateCacheKey (.texts texts) (.embedding ecfg) (hourOf tA))
      = some ⟨.embed (ad.respondEmb texts ecfg), tB + effTtl cache2.default_ttl none⟩ := by
  have hrun1 := getChatCompletion_miss ad st msgs cfg tA tB cache1 hav hmsgs hmiss1
  have hrun2 := generateEmbeddings_miss ad st texts ecfg tA tB cache2 hav htexts hmiss2
  refine ⟨by rw [hrun1], ?_, by rw [hrun2], ?_⟩
  · rw [hrun1]
    show getField (memStore cache1
        (generateCacheKey (.messages msgs) (.model cfg) (hourOf tB)) _).cache
        (generateCacheKey (.messages msgs) (.model cfg) (hourOf tA)) = _
    rw [hhour]
    exact getField_dictSet_self _ _ _
  · rw [hrun2]
    show getField (memStore cache2
        (generateCacheKey (.texts texts) (.embedding ecfg) (hourOf tB)) _).cache
        (generateCacheKey (.texts texts) (.embedding ecfg) (hourOf tA)) = _
    rw [hhour]
    exact getField_dictSet_self _ _ _

/-- Witness for the amended C6 at a concrete miss with both clock phases
in hour bucket 0. -/
theorem c6_stores_under_lookup_key_within_hour_witness :
    (getChatCompletion demoAdapter ⟨0, ⟨3600, []⟩⟩ [demoMsg] demoCfg 10 20).1
      = .ok (.chat (demoAdapter.respond [demoMsg] demoCfg)) ∧
    getField (getChatCompletion demoAdapter ⟨0, ⟨3600, []⟩⟩ [demoMsg] demoCfg 10 20).2.cache.cache
        (generateCacheKey (.messages [demoMsg]) (.model demoCfg) (hourOf 10))
      = some ⟨.chat (demoAdapter.respond [demoMsg] demoCfg), 20 + effTtl (3600 : Nat) none⟩ ∧
    (generateEmbeddings demoAdapter ⟨0, ⟨3600, []⟩⟩ ["t"] ⟨"m", none, .float⟩ 10 20).1
      = .ok (.embed (demoAdapter.respondEmb ["t"] ⟨"m", none, .float⟩)) ∧
    getField (generateEmbeddings demoAdapter ⟨0, ⟨3600, []⟩⟩ ["t"] ⟨"m", none, .float⟩ 10 20).2.cache.cache
        (generateCacheKey (.texts ["t"]) (.embedding ⟨"m", none, .float⟩) (hourOf 10))
      = some ⟨.embed (demoAdapter.respondEmb ["t"] ⟨"m", none, .float⟩),
          20 + effTtl (3600 : Nat) none⟩ :=
  c6_stores_under_lookup_key_within_hour demoAdapter ⟨0, ⟨3600, []⟩⟩ [demoMsg] demoCfg
    ["t"] ⟨"m", none, .float⟩ 10 20 rfl rfl (List.cons_ne_nil _ _) (List.cons_ne_nil _ _)
    ⟨3600, []⟩ ⟨3600, []⟩ rfl rfl

end MCE

namespace MCE

set_option maxHeartbeats 4000000 in
/-- C6 counterexample: the claim that the result is stored "under the
same cache key that was used for the preceding cache lookup of that
invocation" fails when the provider call crosses an hour boundary: with
the lookup phase at epoch second 3599 (hour bucket 0) and the store
phase at 3600 (hour bucket 1), the final cache holds no entry under the
lookup key — the response was stored under the re-derived, different
key. -/
theorem c6_lookup_store_key_skew_counterexample :
    getField (getChatCompletion demoAdapter ⟨0, ⟨3600, []⟩⟩ [demoMsg] demoCfg
        3599 3600).2.cache.cache
      (generateCacheKey (.messages [demoMsg]) (.model demoCfg) (hourOf 3599)) = none ∧
    getField (getChatCompletion demoAdapter ⟨0, ⟨3600, []⟩⟩ [demoMsg] demoCfg
        3599 3600).2.cache.cache
      (generateCacheKey (.messages [demoMsg]) (.model demoCfg) (hourOf 3600))
      = some ⟨.chat demoResp, 3600 + 3600⟩ := by
  constructor
  · decide
  · decide

end MCE
